import Mathlib

/-!
# sqls: the MySQL catalog loader and the completion reference tests

A shallow embedding of `internal/database/mysql.go` and of the test harness of
`internal/handler/completion_test.go`, with the properties of the specification
stated and proved over it.
-/

set_option autoImplicit false

namespace Sqls

/-! ## Go values -/

/-- A Go slice value: the nil slice, or a non-nil slice with its elements in order
(`[]string{}` is `items []`). -/
inductive Slice (α : Type) where
  | null : Slice α
  | items (xs : List α) : Slice α
  deriving DecidableEq, Repr

/-- Go `append(s, x)`: appending to the nil slice gives a non-nil slice. -/
def Slice.append {α : Type} : Slice α → α → Slice α
  | .null, x => .items [x]
  | .items xs, x => .items (xs ++ [x])

/-- A Go pointer or interface value that may be nil; an `error` is `Nilable Err`. -/
abbrev Nilable (α : Type) := Option α

/-- The outcome of a call that may end in a run-time panic (`none`). -/
abbrev OrPanic (α : Type) := Option α

/-! ## The `database/sql` interface used by the loader

`database/sql` and the MySQL driver are libraries outside the repository. Their
behaviour is a parameter of the embedding (`Driver`); only the contract of
`Rows.Next` / `Rows.Scan` that the loader's loops rely on is fixed here. -/

/-- The handle returned by `sql.Open`, identified by what it was opened with. -/
structure SqlDB where
  driverName : String
  connString : String
  deriving DecidableEq, Repr

/-- One row of a query's result set as iteration meets it. `row cells`: `rows.Next()` returns
true and the row is current. `lost cells e`: fetching this row fails, `rows.Next()` returns
false and `rows.Err()` is `e`; the row and all rows after it are never delivered. When the
list is exhausted `rows.Next()` returns false and `rows.Err()` is nil. -/
inductive Fetch (Cell Err : Type) where
  | row (cells : List Cell) : Fetch Cell Err
  | lost (cells : List Cell) (e : Err) : Fetch Cell Err
  deriving DecidableEq, Repr

/-- The cells of a row of the result set, delivered or not. -/
def Fetch.cells {Cell Err : Type} : Fetch Cell Err → List Cell
  | .row cs => cs
  | .lost cs _ => cs

/-- The rows of the result set that iteration delivers: those before the first failed fetch. -/
def delivered {Cell Err : Type} : List (Fetch Cell Err) → List (List Cell)
  | [] => []
  | .lost _ _ :: _ => []
  | .row cs :: rest => cs :: delivered rest

/-- The error `rows.Err()` holds once `rows.Next()` has returned false. -/
def iterErr {Cell Err : Type} : List (Fetch Cell Err) → Option Err
  | [] => none
  | .lost _ e :: _ => some e
  | .row _ :: rest => iterErr rest

/-- The library behaviour the loader runs against. `query` is `(*sql.DB).Query`; `argCount` is
the error of `Scan` called with a number of destinations different from the number of columns;
`toString` is the conversion of a cell into a `*string` destination; `toField k` the conversion
into the `k`-th field of `ColumnDesc` (the declaration of `ColumnDesc` is not among the sources,
so the field types are left to the parameter); `parseDSN` / `formatDSN` are
`mysql.ParseDSN` / `(*Config).FormatDSN` on a configuration made of its `DBName` and the rest
`R`; `sqlOpenErr` is the error of `sql.Open`, if any, and `closeErr` that of `(*sql.DB).Close`. -/
structure Driver (Cell V Err R : Type) where
  query : SqlDB → String → Except Err (List (Fetch Cell Err))
  argCount : Nat → Nat → Err
  toString : Cell → Except Err V
  toField : Fin 6 → Cell → Except Err V
  parseDSN : String → Except Err (String × R)
  formatDSN : String × R → String
  sqlOpenErr : String → String → Option Err
  closeErr : SqlDB → Option Err

/-- `rows.Scan(&s)` with one `*string` destination on the current row: the row must have
exactly one column, which is converted into the destination. -/
def scanString {Cell V Err R : Type} (drv : Driver Cell V Err R) : List Cell → Except Err V
  | [c] => drv.toString c
  | cells => .error (drv.argCount cells.length 1)

/-! ## `mysql.go` -/

/-- `DBOption`: the two fields `Open` reads. -/
structure DBOption where
  MaxIdleConns : Int
  MaxOpenConns : Int
  deriving DecidableEq, Repr

/-- `type MySQLDB struct`. `Option` holds the `DBOption` the pointer field refers to (the
registered constructor always sets it); `Conn` is nil until `Open` succeeds. -/
structure MySQLDB where
  dataSourceName : String
  dbName : String
  Option : DBOption
  Conn : Nilable SqlDB
  deriving DecidableEq, Repr

/-- `ColumnDesc`, with the six fields `DescribeTable` scans into, in that order (`Typ` is the
field `Type`). -/
structure ColumnDesc (V : Type) where
  Name : V
  Typ : V
  Null : V
  Key : V
  Default : V
  Extra : V
  deriving DecidableEq, Repr

/-- A call the loader makes into the libraries, in the order made. -/
inductive Call where
  | ParseDSN (dsn : String) : Call
  | FormatDSN (dbName : String) : Call
  | sqlOpen (driverName connString : String) : Call
  | SetMaxIdleConns (n : Int) : Call
  | SetMaxOpenConns (n : Int) : Call
  | Query (q : String) : Call
  | Close : Call
  deriving DecidableEq, Repr

/-- The result of a loader method returning `(T, error)`, with the calls it made. -/
structure Ret (α Err : Type) where
  val : α
  err : Option Err
  calls : List Call

/-- `func (db *MySQLDB) SwitchDB(dbName string) error`: the returned error, the receiver
afterwards and the library calls made. -/
def MySQLDB.SwitchDB (Err : Type) (db : MySQLDB) (dbName : String) :
    Nilable Err × MySQLDB × List Call :=
  (none, { db with dbName := dbName }, [])

/-- `func (db *MySQLDB) Close() error`. -/
def MySQLDB.Close {Cell V Err R : Type} (drv : Driver Cell V Err R) (db : MySQLDB) :
    OrPanic (Nilable Err × MySQLDB × List Call) :=
  match db.Conn with
  | none => none
  | some conn => some (drv.closeErr conn, db, [Call.Close])

/-- Lines 41-55 of `Open`: `sql.Open("mysql", connString)`, the pool limits, and the store
into `db.Conn`. `dfltIdle` and `dfltOpen` are `DefaultMaxIdleConns` and `DefaultMaxOpenConns`,
constants declared outside `mysql.go`. -/
def MySQLDB.Open.connect {Cell V Err R : Type} (drv : Driver Cell V Err R)
    (dfltIdle dfltOpen : Int) (db : MySQLDB) (connString : String) (calls : List Call) :
    Nilable Err × MySQLDB × List Call :=
  match drv.sqlOpenErr "mysql" connString with
  | some e => (some e, db, calls ++ [Call.sqlOpen "mysql" connString])
  | none =>
    (none, { db with Conn := some ⟨"mysql", connString⟩ },
      calls ++ [Call.sqlOpen "mysql" connString, Call.SetMaxIdleConns dfltIdle]
        ++ (if db.Option.MaxIdleConns ≠ 0 then [Call.SetMaxIdleConns db.Option.MaxIdleConns]
            else [])
        ++ [Call.SetMaxOpenConns dfltOpen]
        ++ (if db.Option.MaxOpenConns ≠ 0 then [Call.SetMaxOpenConns db.Option.MaxOpenConns]
            else []))

/-- `func (db *MySQLDB) Open() error`: the returned error, the receiver afterwards and the
library calls made. -/
def MySQLDB.Open {Cell V Err R : Type} (drv : Driver Cell V Err R) (dfltIdle dfltOpen : Int)
    (db : MySQLDB) : Nilable Err × MySQLDB × List Call :=
  if db.dbName ≠ "" then
    match drv.parseDSN db.dataSourceName with
    | .error e => (some e, db, [Call.ParseDSN db.dataSourceName])
    | .ok cfg =>
      let cfg := (db.dbName, cfg.2)
      MySQLDB.Open.connect drv dfltIdle dfltOpen db (drv.formatDSN cfg)
        [Call.ParseDSN db.dataSourceName, Call.FormatDSN cfg.1]
  else
    MySQLDB.Open.connect drv dfltIdle dfltOpen db db.dataSourceName []

/-- The loop of `Databases`: `for rows.Next() { Scan; append }`, then `return databases, nil`
without consulting `rows.Err()`. -/
def MySQLDB.Databases.loop {Cell V Err R : Type} (drv : Driver Cell V Err R) :
    List (Fetch Cell Err) → Slice V → Slice V × Nilable Err
  | [], databases => (databases, none)
  | .lost _ _ :: _, databases => (databases, none)
  | .row cells :: rest, databases =>
    match scanString drv cells with
    | .error e => (.null, some e)
    | .ok database => MySQLDB.Databases.loop drv rest (databases.append database)

/-- `func (db *MySQLDB) Databases() ([]string, error)`; `none` is the nil-pointer panic of a
loader that was never opened. -/
def MySQLDB.Databases {Cell V Err R : Type} (drv : Driver Cell V Err R) (db : MySQLDB) :
    OrPanic (Ret (Slice V) Err) :=
  match db.Conn with
  | none => none
  | some conn =>
    match drv.query conn "SHOW DATABASES" with
    | .error e => some ⟨.null, some e, [Call.Query "SHOW DATABASES"]⟩
    | .ok rows =>
      let r := MySQLDB.Databases.loop drv rows (.items [])
      some ⟨r.1, r.2, [Call.Query "SHOW DATABASES"]⟩

/-- The loop of `Tables`. -/
def MySQLDB.Tables.loop {Cell V Err R : Type} (drv : Driver Cell V Err R) :
    List (Fetch Cell Err) → Slice V → Slice V × Nilable Err
  | [], tables => (tables, none)
  | .lost _ _ :: _, tables => (tables, none)
  | .row cells :: rest, tables =>
    match scanString drv cells with
    | .error e => (.null, some e)
    | .ok table => MySQLDB.Tables.loop drv rest (tables.append table)

/-- `func (db *MySQLDB) Tables() ([]string, error)`. -/
def MySQLDB.Tables {Cell V Err R : Type} (drv : Driver Cell V Err R) (db : MySQLDB) :
    OrPanic (Ret (Slice V) Err) :=
  match db.Conn with
  | none => none
  | some conn =>
    match drv.query conn "SHOW TABLES" with
    | .error e => some ⟨.null, some e, [Call.Query "SHOW TABLES"]⟩
    | .ok rows =>
      let r := MySQLDB.Tables.loop drv rows (.items [])
      some ⟨r.1, r.2, [Call.Query "SHOW TABLES"]⟩

/-- `rows.Scan(&tableInfo.Name, ..., &tableInfo.Extra)`: six destinations, so the row must have
six columns; column `k` is converted into the `k`-th field, in order, and the first failing
conversion is the error. -/
def scanColumnDesc {Cell V Err R : Type} (drv : Driver Cell V Err R) :
    List Cell → Except Err (ColumnDesc V)
  | [c0, c1, c2, c3, c4, c5] => do
    let name ← drv.toField 0 c0
    let type ← drv.toField 1 c1
    let null ← drv.toField 2 c2
    let key ← drv.toField 3 c3
    let dflt ← drv.toField 4 c4
    let extra ← drv.toField 5 c5
    pure ⟨name, type, null, key, dflt, extra⟩
  | cells => .error (drv.argCount cells.length 6)

/-- The loop of `DescribeTable`. The heap of `ColumnDesc` variables is explicit: an address is
an index into `heap`. Each iteration declares a fresh `tableInfo` (the next free address),
scans into it and appends its address `&tableInfo`. -/
def MySQLDB.DescribeTable.loop {Cell V Err R : Type} (drv : Driver Cell V Err R) :
    List (Fetch Cell Err) → List (ColumnDesc V) → Slice Nat →
      (Slice Nat × Nilable Err) × List (ColumnDesc V)
  | [], heap, tableInfos => ((tableInfos, none), heap)
  | .lost _ _ :: _, heap, tableInfos => ((tableInfos, none), heap)
  | .row cells :: rest, heap, tableInfos =>
    match scanColumnDesc drv cells with
    | .error e => ((.null, some e), heap)
    | .ok tableInfo =>
      MySQLDB.DescribeTable.loop drv rest (heap ++ [tableInfo]) (tableInfos.append heap.length)

/-- `func (db *MySQLDB) DescribeTable(tableName string) ([]*ColumnDesc, error)`: the result
(a slice of addresses) and the heap afterwards. -/
def MySQLDB.DescribeTable {Cell V Err R : Type} (drv : Driver Cell V Err R) (db : MySQLDB)
    (heap : List (ColumnDesc V)) (tableName : String) :
    OrPanic (Ret (Slice Nat) Err × List (ColumnDesc V)) :=
  match db.Conn with
  | none => none
  | some conn =>
    match drv.query conn ("DESC " ++ tableName) with
    | .error e => some (⟨.null, some e, [Call.Query ("DESC " ++ tableName)]⟩, heap)
    | .ok rows =>
      let r := MySQLDB.DescribeTable.loop drv rows heap (.items [])
      some (⟨r.1.1, r.1.2, [Call.Query ("DESC " ++ tableName)]⟩, r.2)

/-! ## Functional description of the scanning loops -/

/-- Scanning rows in order: all the scanned values, or the error of the first row whose scan
fails. -/
def scanRows {Cell α Err : Type} (scan : List Cell → Except Err α) :
    List (List Cell) → Except Err (List α)
  | [] => .ok []
  | cells :: rest =>
    match scan cells with
    | .error e => .error e
    | .ok v =>
      match scanRows scan rest with
      | .error e => .error e
      | .ok vs => .ok (v :: vs)

/-- Every row of the result set is delivered: no fetch fails. -/
def allDelivered {Cell Err : Type} (rows : List (Fetch Cell Err)) : Prop :=
  delivered rows = rows.map Fetch.cells

/-! ## Concrete servers used to instantiate the statements -/

/-- The answers of a MySQL server holding the `world` database. -/
def worldAnswers (q : String) : Except String (List (Fetch (Option String) String)) :=
  if q = "SHOW DATABASES" then
    .ok [.row [some "information_schema"], .row [some "mysql"], .row [some "world"]]
  else if q = "SHOW TABLES" then
    .ok [.row [some "city"], .row [some "country"], .row [some "countrylanguage"]]
  else if q = "DESC countrylanguage" then
    .ok [.row [some "CountryCode", some "char(3)", some "NO", some "PRI", none, some ""],
         .row [some "Language", some "char(30)", some "NO", some "PRI", none, some ""]]
  else .error "Error 1146: Table does not exist"

/-- The library behaviour over text cells (`none` is SQL NULL): NULL converts into no
destination but the fifth `ColumnDesc` field; DSNs are `rest/dbname`. -/
def worldDriver : Driver (Option String) String String String where
  query := fun _ q => worldAnswers q
  argCount := fun _ _ => "sql: wrong number of destination arguments in Scan"
  toString := fun c =>
    match c with
    | some s => .ok s
    | none => .error "sql: converting NULL to string is unsupported"
  toField := fun k c =>
    match c with
    | some s => .ok s
    | none => if k = 4 then .ok "" else .error "sql: converting NULL to string is unsupported"
  parseDSN := fun s =>
    if s = "root@tcp(127.0.0.1:3306)/world" then .ok ("world", "root@tcp(127.0.0.1:3306)")
    else .error "invalid DSN: missing the slash separating the database name"
  formatDSN := fun cfg => cfg.2 ++ "/" ++ cfg.1
  sqlOpenErr := fun _ _ => none
  closeErr := fun _ => none

/-- A server whose connection breaks while the second row of any answer is fetched. -/
def flakyDriver : Driver (Option String) String String String :=
  { worldDriver with
    query := fun _ q =>
      match worldAnswers q with
      | .ok (r :: .row cells :: rest) => .ok (r :: .lost cells "invalid connection" :: rest)
      | other => other }

/-- A server whose answers carry a NULL where a name is expected, in the second row. -/
def nullDriver : Driver (Option String) String String String :=
  { worldDriver with
    query := fun _ q =>
      match worldAnswers q with
      | .ok (r :: .row (_ :: cells) :: rest) => .ok (r :: .row (none :: cells) :: rest)
      | other => other }

/-- A loader opened on the `world` database. -/
def worldDB : MySQLDB :=
  ⟨"root@tcp(127.0.0.1:3306)/world", "", ⟨0, 0⟩, some ⟨"mysql", "root@tcp(127.0.0.1:3306)/world"⟩⟩

/-! ## `completion_test.go`: the case tables and the test harness -/

/-- `type completionTestCase struct`. -/
structure completionTestCase where
  name : String
  input : String
  line : Int
  col : Int
  want : List String
  deriving DecidableEq, Repr

/-- `var statementCase` (line 19 of `completion_test.go`). -/
def statementCase : List completionTestCase :=
  [⟨"columns on multiple statement forcused first",
      "SELECT c. FROM city as c;SELECT c. FROM country as c;",
      0, 9,
      ["ID", "Name", "CountryCode", "District", "Population"]⟩,
   ⟨"columns with multiple statement forcused second",
      "SELECT c. FROM city as c;SELECT c. FROM country as c;",
      0, 34,
      ["Code", "Name", "CountryCode", "Region", "SurfaceArea", "IndepYear", "LifeExpectancy",
       "GNP", "GNPOld", "LocalName", "GovernmentForm", "HeadOfState", "Capital", "Code2"]⟩]

/-- `var selectExprCase` (line 57 of `completion_test.go`). -/
def selectExprCase : List completionTestCase :=
  [⟨"table columns", "select  from city", 0, 7,
      ["ID", "Name", "CountryCode", "District", "Population", "city", "country",
       "countrylanguage"]⟩,
   ⟨"filterd table columns", "select Cou from city", 0, 10,
      ["CountryCode", "country", "countrylanguage"]⟩,
   ⟨"columns of table specifies database", "select  from world.city", 0, 7,
      ["ID", "Name", "CountryCode", "District", "Population", "city", "country",
       "countrylanguage"]⟩,
   ⟨"columns of aliased table", "select  from city as c", 0, 7,
      ["ID", "Name", "CountryCode", "District", "Population", "c", "country", "countrylanguage"]⟩,
   ⟨"columns of aliased table specifies database", "select  from world.city as c", 0, 7,
      ["ID", "Name", "CountryCode", "District", "Population", "c", "country", "countrylanguage"]⟩,
   ⟨"columns of aliased table without as", "select  from city c", 0, 7,
      ["ID", "Name", "CountryCode", "District", "Population", "c", "country", "countrylanguage"]⟩,
   ⟨"columns of before period table", "select c. from city as c", 0, 9,
      ["ID", "Name", "CountryCode", "District", "Population"]⟩,
   ⟨"filterd columns of before period table", "select c.C from city as c", 0, 10,
      ["CountryCode"]⟩,
   ⟨"identifier list", "select id,  from city", 0, 11,
      ["ID", "Name", "CountryCode", "District", "Population", "city", "country",
       "countrylanguage"]⟩,
   ⟨"filterd identifier list", "select id, cou from city", 0, 14,
      ["CountryCode", "country", "countrylanguage"]⟩,
   ⟨"comparison", "select 1 = cou from city", 0, 14,
      ["CountryCode", "country", "countrylanguage"]⟩,
   ⟨"operator", "select 1 + cou from city", 0, 14,
      ["CountryCode", "country", "countrylanguage"]⟩]

/-- `var tableReferenceCase` (line 222 of `completion_test.go`). -/
def tableReferenceCase : List completionTestCase :=
  [⟨"from tables", "select CountryCode from ", 0, 24,
      ["city", "country", "countrylanguage", "information_schema", "mysql",
       "performance_schema", "sys", "world"]⟩,
   ⟨"from filterd tables", "select CountryCode from co", 0, 26,
      ["country", "countrylanguage"]⟩,
   ⟨"join tables", "select CountryCode from city join ", 0, 34,
      ["city", "country", "countrylanguage"]⟩,
   ⟨"join filterd tables", "select CountryCode from city join co", 0, 36,
      ["country", "countrylanguage"]⟩,
   ⟨"insert tables", "INSERT INTO ", 0, 12,
      ["city", "country", "countrylanguage"]⟩,
   ⟨"insert filterd tables", "INSERT INTO co", 0, 12,
      ["country", "countrylanguage"]⟩,
   ⟨"insert columns", "INSERT INTO city (", 0, 18,
      ["ID", "Name", "CountryCode", "District", "Population"]⟩,
   ⟨"insert filterd columns", "INSERT INTO city (cou", 0, 21,
      ["CountryCode"]⟩,
   ⟨"insert identifier list", "INSERT INTO city (id, cou", 0, 25,
      ["CountryCode"]⟩,
   ⟨"update tables", "UPDATE ", 0, 7,
      ["city", "country", "countrylanguage"]⟩,
   ⟨"update filterd tables", "UPDATE co", 0, 9,
      ["country", "countrylanguage"]⟩,
   ⟨"update columns", "UPDATE city SET ", 0, 16,
      ["ID", "Name", "CountryCode", "District", "Population"]⟩,
   ⟨"update filterd columns", "UPDATE city SET cou", 0, 19,
      ["CountryCode"]⟩,
   ⟨"update identiger list", "UPDATE city SET CountryCode=12, Na", 0, 34,
      ["Name"]⟩,
   ⟨"delete tables", "DELETE FROM ", 0, 12,
      ["city", "country", "countrylanguage"]⟩,
   ⟨"delete filterd tables", "DELETE FROM co", 0, 14,
      ["country", "countrylanguage"]⟩]

/-- `var whereCondition` (line 397 of `completion_test.go`). -/
def whereCondition : List completionTestCase :=
  [⟨"where columns", "select * from city where ", 0, 25,
      ["ID", "Name", "CountryCode", "District", "Population"]⟩,
   ⟨"where columns of specified table", "select * from city where city.", 0, 30,
      ["ID", "Name", "CountryCode", "District", "Population"]⟩,
   ⟨"where columns in left of comparison", "select * from city where  = ID", 0, 25,
      ["ID", "Name", "CountryCode", "District", "Population"]⟩,
   ⟨"where columns in right of comparison", "select * from city where ID = ", 0, 30,
      ["ID", "Name", "CountryCode", "District", "Population"]⟩,
   ⟨"where columns of specified table in left of comparison",
      "select * from city where city. = city.ID",
      0, 30,
      ["ID", "Name", "CountryCode", "District", "Population"]⟩,
   ⟨"where columns of specified table in right of comparison",
      "select * from city where city.ID = city.",
      0, 40,
      ["ID", "Name", "CountryCode", "District", "Population"]⟩,
   ⟨"join on columns", "select * from city left join country on ", 0, 40,
      ["Code", "Name", "CountryCode", "Continent", "Region", "SurfaceArea", "IndepYear",
       "LifeExpectancy", "GNP", "GNPOld", "LocalName", "GovernmentForm", "HeadOfState",
       "Capital", "Code2"]⟩,
   ⟨"join on filterd columns", "select * from city left join country on co", 0, 52,
      ["Code", "Continent", "Code2"]⟩]

/-- `var colNameCase` (line 512 of `completion_test.go`). -/
def colNameCase : List completionTestCase :=
  [⟨"ORDER BY columns", "SELECT ID, Name FROM city ORDER BY ", 0, 35,
      ["ID", "Name", "CountryCode", "District", "Population", "city", "country",
       "countrylanguage"]⟩,
   ⟨"GROUP BY columns", "SELECT CountryCode, COUNT(*) FROM city GROUP BY ", 0, 48,
      ["ID", "Name", "CountryCode", "District", "Population", "city", "country",
       "countrylanguage"]⟩]

/-- `var caseValueCase` (line 547 of `completion_test.go`). -/
def caseValueCase : List completionTestCase :=
  [⟨"select case after case",
      "SELECT `Language`, CASE Is WHEN 'T' THEN 'official' WHEN 'F' THEN 'unofficial' END AS is_official FROM countrylanguage;",
      0, 26,
      ["IsOfficial"]⟩,
   ⟨"select case after when",
      "SELECT `Language`, CASE IsOfficial WHEN Is THEN 'official' WHEN 'F' THEN 'unofficial' END AS is_official FROM countrylanguage;",
      0, 42,
      ["IsOfficial"]⟩,
   ⟨"select case after then",
      "SELECT `Language`, CASE IsOfficial WHEN 'T' THEN Is WHEN 'F' THEN 'unofficial' END AS is_official FROM countrylanguage;",
      0, 51,
      ["IsOfficial"]⟩,
   ⟨"select case identifier list",
      "SELECT `Language`, CASE IsOfficial WHEN 'T' THEN Is WHEN 'F' THEN 'unofficial' END AS is_official, P FROM countrylanguage;",
      0, 100,
      ["Percentage"]⟩]

/-- `var subQueryCase` (line 586 of `completion_test.go`). -/
def subQueryCase : List completionTestCase :=
  [⟨"in subquery table columns", "SELECT * FROM (SELECT Cou FROM city)", 0, 25,
      ["CountryCode", "country", "countrylanguage"]⟩,
   ⟨"in subquery table references", "SELECT * FROM (SELECT * FROM ", 0, 29,
      ["city", "country", "countrylanguage"]⟩,
   ⟨"in subquery filterd table references", "SELECT * FROM (SELECT * FROM co", 0, 29,
      ["country", "countrylanguage"]⟩,
   ⟨"subquery columns",
      "SELECT  FROM (SELECT ID as city_id, Name as city_name FROM city) as t",
      0, 7,
      ["t", "city_id", "city_name"]⟩,
   ⟨"subquery columns",
      "SELECT t. FROM (SELECT ID as city_id, Name as city_name FROM city) as t",
      0, 9,
      ["city_id", "city_name"]⟩,
   ⟨"columns of multiple subquery",
      "SELECT  FROM (SELECT Name as city_name FROM city) AS sub1, (SELECT LocalName as country_name FROM country) AS sub2 limit 1",
      0, 7,
      ["sub1", "sub2", "city_name", "country_name"]⟩]

/-- Modelled from the spec: `lsp.CompletionItem`, declared in a package that is not among the
sources; the completion response of §6 is an array of `{label, kind, detail?, documentation?}`,
`kind` being an LSP completion-item-kind number. -/
structure CompletionItem where
  Label : String
  Kind : Nat
  Detail : String
  Documentation : String
  deriving DecidableEq, Repr

/-- What a test reports through `*testing.T`: `t.Errorf(format, arg)` marks the test failed and
goes on; `t.Fatal(msg, err)` marks it failed and stops it. -/
inductive TestEvent where
  | Errorf (format arg : String) : TestEvent
  | Fatal (msg err : String) : TestEvent
  deriving DecidableEq, Repr

/-- `itemMap[k] = struct{}{}` on a `map[string]struct{}`, kept as its list of keys. -/
def mapSet (m : List String) (k : String) : List String :=
  if k ∈ m then m else m ++ [k]

/-- `_, ok := itemMap[k]`. -/
def mapHas (m : List String) (k : String) : Bool :=
  decide (k ∈ m)

/-- The first loop of `testCompletionItem`: `for _, item := range gotItems`. -/
def testCompletionItem.fill : List CompletionItem → List String → List String
  | [], itemMap => itemMap
  | item :: rest, itemMap => testCompletionItem.fill rest (mapSet itemMap item.Label)

/-- The second loop of `testCompletionItem`: `for _, el := range expectLabels`. -/
def testCompletionItem.check (itemMap : List String) : List String → List TestEvent
  | [] => []
  | el :: rest =>
    if !mapHas itemMap el then
      TestEvent.Errorf "not included label, expect %q" el :: testCompletionItem.check itemMap rest
    else testCompletionItem.check itemMap rest

/-- `func testCompletionItem(t, expectLabels, gotItems)`: the failures it reports, in order. -/
def testCompletionItem (expectLabels : List String) (gotItems : List CompletionItem) :
    List TestEvent :=
  let itemMap := testCompletionItem.fill gotItems []
  testCompletionItem.check itemMap expectLabels

/-- The language server behind `tx.conn.Call`, which is not among the sources: the error of
each call (`none` for nil), the events of `tx.testFile` on the opened text, and the items the
server answers for a text opened by `didOpen` and a position. -/
structure Server where
  didChangeConfiguration : Option String
  didOpen : String → Option String
  testFile : String → List TestEvent
  completion : String → Int → Int → Except String (List CompletionItem)

/-- `testcaseMap` of `TestComplete`, entries in the order of the map literal. -/
def testcaseMap : List (String × List completionTestCase) :=
  [("statement", statementCase),
   ("select expr", selectExprCase),
   ("table reference", tableReferenceCase),
   ("col name", colNameCase),
   ("case value", caseValueCase),
   ("subquery", subQueryCase)]

/-- One `t.Run` of `TestComplete`: the subtest name passed, the case, what it reported. -/
structure Subtest where
  name : String
  tt : completionTestCase
  events : List TestEvent
  deriving DecidableEq, Repr

/-- The body of the subtest closure of `TestComplete` for the case `tt`. -/
def TestComplete.body (srv : Server) (tt : completionTestCase) : List TestEvent :=
  match srv.didOpen tt.input with
  | some err => [TestEvent.Fatal "conn.Call textDocument/didOpen:" err]
  | none =>
    let opened := srv.testFile tt.input
    if opened.any (fun ev => match ev with | .Fatal _ _ => true | .Errorf _ _ => false) then
      opened
    else
      match srv.completion tt.input tt.line tt.col with
      | .error err => opened ++ [TestEvent.Fatal "conn.Call textDocument/completion:" err]
      | .ok got => opened ++ testCompletionItem tt.want got

/-- `func TestComplete(t *testing.T)`. `order` is the order in which `range testcaseMap` yields
the entries of the map, which Go leaves unspecified. The result is the `t.Fatal` of the
configuration call, or the subtests run, in order. -/
def TestComplete (srv : Server) (order : List (String × List completionTestCase)) :
    Except TestEvent (List Subtest) :=
  match srv.didChangeConfiguration with
  | some err => .error (TestEvent.Fatal "conn.Call workspace/didChangeConfiguration:" err)
  | none =>
    .ok (order.flatMap fun kv =>
      kv.2.map fun tt => ⟨kv.1 ++ " " ++ tt.name, tt, TestComplete.body srv tt⟩)

/-- A server that accepts every call and answers no completion item. -/
def idleServer : Server where
  didChangeConfiguration := none
  didOpen := fun _ => none
  testFile := fun _ => []
  completion := fun _ _ _ => .ok []

/-! ## The completion engine

The engine (tokenizer, parser, cursor locator, scope analyzer, candidate generator) is code of
the repository that is not among the sources; only its reference tests are. It is modelled
from sections 3, 4 and 6 of the specification, as far as the labels of the candidate list go. -/

/-- Modelled from the spec: the token kinds of §3 (`Punct(char)` keeps its characters in the
token text). -/
inductive TokenKind where
  | Keyword | Identifier | QuotedIdentifier | Number | String | Punct | Whitespace | Comment
  | EOF
  deriving DecidableEq, Repr

/-- Modelled from the spec: a token `{kind, text, span}` of §3. Token spans are disjoint and
cover the input, so the span of a token is the interval of its text after the texts of the
tokens before it (`width`). -/
structure Token where
  kind : TokenKind
  text : String
  deriving DecidableEq, Repr

/-- Modelled from the spec: the keyword set of §6. -/
def keywordSet : List String :=
  ["SELECT", "FROM", "WHERE", "JOIN", "LEFT", "RIGHT", "INNER", "OUTER", "ON", "AS", "GROUP",
   "ORDER", "BY", "HAVING", "LIMIT", "INSERT", "INTO", "VALUES", "UPDATE", "SET", "DELETE",
   "CASE", "WHEN", "THEN", "ELSE", "END", "AND", "OR", "NOT", "NULL", "IS", "IN", "LIKE",
   "BETWEEN", "DISTINCT", "UNION", "ALL", "ASC", "DESC"]

/-- Modelled from the spec: upper-casing, for the case-insensitive keyword match. -/
def upper (s : String) : String := String.mk (s.data.map Char.toUpper)

/-- Modelled from the spec: lower-casing, for the case-insensitive comparison of identifiers and
labels. -/
def lower (s : String) : String := String.mk (s.data.map Char.toLower)

/-- Modelled from the spec: an identifier character. -/
def isIdentChar (c : Char) : Bool := c.isAlphanum || c == '_'

/-- Modelled from the spec: the characters of a quoted run after its opening quote, the closing
quote included. -/
def takeQuoted (close : Char) : List Char → List Char
  | [] => []
  | c :: cs => if c == close then [c] else c :: takeQuoted close cs

/-- Modelled from the spec: the characters of a single-quoted string after its opening quote; a
doubled quote is an escaped quote. -/
def takeString : List Char → List Char
  | [] => []
  | [c] => [c]
  | c :: d :: ds =>
    if c == Char.ofNat 39 && d == Char.ofNat 39 then c :: d :: takeString ds
    else if c == Char.ofNat 39 then [c]
    else c :: takeString (d :: ds)

/-- Modelled from the spec: the characters of a block comment after its opening, the closing `*/`
included. -/
def takeBlock : List Char → List Char
  | [] => []
  | [c] => [c]
  | c :: d :: ds => if c == '*' && d == '/' then [c, d] else c :: takeBlock (d :: ds)

/-- Modelled from the spec: the characters of a numeric literal after its first digit: digits,
then an optional fraction. -/
def takeNumber (cs : List Char) : List Char :=
  let int := cs.takeWhile Char.isDigit
  match cs.drop int.length with
  | '.' :: d :: rest =>
    if d.isDigit then int ++ '.' :: d :: rest.takeWhile Char.isDigit else int
  | _ => int

/-- Modelled from the spec: one step of the scanner of §4.1, the token the input starts with.
It never fails: a character that starts nothing else is a one-character `Punct`. -/
def nextToken : List Char → Option Token
  | [] => none
  | c :: cs =>
    if c.isWhitespace then
      some ⟨.Whitespace, String.mk (c :: cs.takeWhile Char.isWhitespace)⟩
    else if c == '-' && cs.head? == some '-' then
      some ⟨.Comment, String.mk (c :: cs.takeWhile fun d => d != Char.ofNat 10)⟩
    else if c == '/' && cs.head? == some '*' then
      some ⟨.Comment, String.mk (c :: '*' :: takeBlock cs.tail)⟩
    else if c == Char.ofNat 96 then
      some ⟨.QuotedIdentifier, String.mk (c :: takeQuoted (Char.ofNat 96) cs)⟩
    else if c == '[' then
      some ⟨.QuotedIdentifier, String.mk (c :: takeQuoted ']' cs)⟩
    else if c == Char.ofNat 34 then
      some ⟨.QuotedIdentifier, String.mk (c :: takeQuoted (Char.ofNat 34) cs)⟩
    else if c == Char.ofNat 39 then
      some ⟨.String, String.mk (c :: takeString cs)⟩
    else if c.isDigit then
      some ⟨.Number, String.mk (c :: takeNumber cs)⟩
    else if c.isAlpha || c == '_' then
      let word := String.mk (c :: cs.takeWhile isIdentChar)
      if upper word ∈ keywordSet then some ⟨.Keyword, word⟩ else some ⟨.Identifier, word⟩
    else
      match cs with
      | d :: _ =>
        if (c == '<' && (d == '=' || d == '>')) || (c == '>' && d == '=')
            || (c == '!' && d == '=') then
          some ⟨.Punct, String.mk [c, d]⟩
        else some ⟨.Punct, String.mk [c]⟩
      | [] => some ⟨.Punct, String.mk [c]⟩

/-- Modelled from the spec: the scanner of §4.1 with a bound on the number of tokens. -/
def tokenizeAux : Nat → List Char → List Token
  | 0, _ => []
  | fuel + 1, cs =>
    match nextToken cs with
    | none => []
    | some t => t :: tokenizeAux fuel (cs.drop t.text.length)

/-- Modelled from the spec: the tokenizer of §4.1. Every token has at least one character, so
the number of characters bounds the number of tokens. -/
def tokenize (input : String) : List Token :=
  tokenizeAux input.length input.data

/-- Modelled from the spec: the number of characters of a token. -/
def Token.width (t : Token) : Nat := t.text.length

/-- Modelled from the spec: the number of characters of a run of tokens. -/
def width : List Token → Nat
  | [] => 0
  | t :: ts => t.width + width ts

/-- Modelled from the spec: is the token this punctuation? -/
def Token.isPunct (t : Token) (p : String) : Bool :=
  t.kind == .Punct && t.text == p

/-- Modelled from the spec: is the token this keyword (given in upper case)? -/
def Token.isKeyword (t : Token) (k : String) : Bool :=
  t.kind == .Keyword && upper t.text == k

/-- Modelled from the spec: is the token whitespace or a comment? -/
def Token.isBlank (t : Token) : Bool :=
  t.kind == .Whitespace || t.kind == .Comment

/-- Modelled from the spec: is the token made of identifier characters (a word being typed)? -/
def Token.isWord (t : Token) : Bool :=
  t.kind == .Identifier || t.kind == .Keyword || t.kind == .Number

/-- Modelled from the spec: the parenthesis depth after a token. -/
def depthAfter (depth : Nat) (t : Token) : Nat :=
  if t.isPunct "(" then depth + 1 else if t.isPunct ")" then depth - 1 else depth

/-- Modelled from the spec: the top-level statements of §4.2, "statement boundary is `;` at
statement depth zero". A statement keeps its closing `;`; the last statement is what follows
the last boundary. -/
def splitStatements : Nat → List Token → List (List Token)
  | _, [] => [[]]
  | depth, t :: ts =>
    if t.isPunct ";" && depth == 0 then [t] :: splitStatements 0 ts
    else
      match splitStatements (depthAfter depth t) ts with
      | [] => [[t]]
      | s :: rest => (t :: s) :: rest

/-- Modelled from the spec: step 1 of §4.3, "find the statement whose span contains the
offset; if the offset is on a boundary between statements, prefer the statement to the left".
The result is the focused statement and the offset of the cursor within it. -/
def focus : List (List Token) → Nat → List Token × Nat
  | [], off => ([], off)
  | [s], off => (s, off)
  | s :: rest, off => if off ≤ width s then (s, off) else focus rest (off - width s)

/-- Modelled from the spec: `Identifier(name, quoted?)` of §3. -/
structure Ident where
  name : String
  quoted : Bool
  deriving DecidableEq, Repr

/-- Modelled from the spec: the name inside a quoted identifier: the text without its quotes. -/
def unquote (text : String) : String :=
  let body := text.data.drop 1
  match body.getLast? with
  | some c =>
    if c == Char.ofNat 96 || c == ']' || c == Char.ofNat 34 then String.mk body.dropLast
    else String.mk body
  | none => String.mk body

/-- Modelled from the spec: the identifier a token is, if it is one. -/
def Token.ident? (t : Token) : Option Ident :=
  match t.kind with
  | .Identifier => some ⟨t.text, false⟩
  | .QuotedIdentifier => some ⟨unquote t.text, true⟩
  | _ => none

/-- Modelled from the spec: the tokens the parser reads: all but whitespace and comments. -/
def significant (ts : List Token) : List Token :=
  ts.filter fun t => !t.isBlank

/-- Modelled from the spec: does a run of tokens begin, blanks apart, with the keyword `SELECT`?
-/
def startsWithSelect : List Token → Bool
  | [] => false
  | t :: ts => if t.isBlank then startsWithSelect ts else t.isKeyword "SELECT"

/-- Modelled from the spec: `TableRef = {db?, table, alias?, derivedColumns?}` of §3
(`aliasId` is the field `alias`). -/
structure TableRef where
  db : Option Ident
  table : Ident
  aliasId : Option Ident
  derivedColumns : Option (List String)
  deriving DecidableEq, Repr

/-- Modelled from the spec: the context kinds of §3. -/
inductive ContextKind where
  | SelectListItem | FromTable | JoinTable | InsertTargetTable | InsertColumn
  | UpdateTargetTable | UpdateSetColumn | DeleteFromTable | WhereOperand | JoinOnOperand
  | GroupByItem | OrderByItem | CaseOperand
  | SubqueryBody (inner : ContextKind)
  | Unknown
  deriving DecidableEq, Repr

/-- Modelled from the spec: `CompletionContext = {kind, dottedPrefix?, prefixText, span}` of
§3, without the span. -/
structure CompletionContext where
  kind : ContextKind
  dottedPrefix : Option Ident
  prefixText : String
  deriving DecidableEq, Repr

/-! ### Cursor locator (§4.3) -/

/-- Modelled from the spec: the tokens of a statement around an offset: those that end at or
before it, the token it falls strictly inside (with the offset into that token), and those after.
-/
def cut : List Token → Nat → List Token × Option (Token × Nat) × List Token
  | [], _ => ([], none, [])
  | t :: ts, off =>
    if t.width ≤ off then
      let r := cut ts (off - t.width)
      (t :: r.1, r.2)
    else if off = 0 then ([], none, t :: ts)
    else ([], some (t, off), ts)

/-- Modelled from the spec: step 5 of §4.3, "`prefixText` is the contiguous identifier
characters immediately left of the cursor". A word token is a run of identifier characters,
so these are the characters of the word the cursor is in or right after. -/
def prefixTextOf (before : List Token) (inside : Option (Token × Nat)) : String :=
  match inside with
  | some (t, k) => if t.isWord then String.mk (t.text.data.take k) else ""
  | none =>
    match before.getLast? with
    | some t => if t.isWord then t.text else ""
    | none => ""

/-- Modelled from the spec: the tokens left of the word being typed. -/
def leftOfWord (before : List Token) (inside : Option (Token × Nat)) : List Token :=
  match inside with
  | some _ => before
  | none =>
    match before.getLast? with
    | some t => if t.isWord then before.dropLast else before
    | none => before

/-- Modelled from the spec: step 4 of §4.3, "if the node immediately to the left of the cursor
is a `MemberRef` whose dot lies at or before the cursor, record the parent identifier as
`dottedPrefix`". The argument is the tokens left of the word being typed, nearest first. -/
def dottedPrefixOf : List Token → Option Ident
  | dot :: parent :: _ => if dot.isPunct "." then parent.ident? else none
  | _ => none

/-- Modelled from the spec: walking leftwards from the cursor (`depth` closed parentheses are open
to the left, `acc` is what was walked over, in text order): for each enclosing parenthesis that
opens a subquery, innermost first, the tokens between it and the cursor. -/
def enclosing : Nat → List Token → List Token → List (List Token)
  | _, [], _ => []
  | depth, t :: ts, acc =>
    if t.isPunct ")" then enclosing (depth + 1) ts (t :: acc)
    else if t.isPunct "(" then
      if depth = 0 then
        if startsWithSelect acc then acc :: enclosing 0 ts (t :: acc)
        else enclosing 0 ts (t :: acc)
      else enclosing (depth - 1) ts (t :: acc)
    else enclosing depth ts (t :: acc)

/-- Modelled from the spec: the tokens up to the parenthesis that closes the group the walk is in
(`depth` groups opened since are still open). -/
def untilClose : Nat → List Token → List Token
  | _, [] => []
  | depth, t :: ts =>
    if t.isPunct ")" then
      if depth = 0 then [] else t :: untilClose (depth - 1) ts
    else if t.isPunct "(" then t :: untilClose (depth + 1) ts
    else t :: untilClose depth ts

/-- Modelled from the spec: the number of parentheses a run of tokens leaves open. -/
def openDepth (ts : List Token) : Nat :=
  ts.foldl depthAfter 0

/-- Modelled from the spec: step 3 of §4.3, the nearest enclosing clause. The argument is the
significant tokens left of the cursor within the innermost statement, nearest first; `depth`
counts closed parentheses being skipped, `ends` closed `CASE ... END` being skipped, `paren`
and `call` record that the cursor is inside an open parenthesis, resp. one that follows an
identifier (a call). -/
def clauseKind : Nat → Nat → Bool → Bool → List Token → ContextKind
  | _, _, _, _, [] => .Unknown
  | depth, ends, paren, call, t :: ts =>
    if t.isPunct ")" then clauseKind (depth + 1) ends paren call ts
    else if t.isPunct "(" then
      if depth = 0 then
        clauseKind 0 ends true (call || (ts.head?.bind Token.ident?).isSome) ts
      else clauseKind (depth - 1) ends paren call ts
    else if depth ≠ 0 then clauseKind depth ends paren call ts
    else if t.isKeyword "END" then clauseKind depth (ends + 1) paren call ts
    else if t.isKeyword "CASE" then
      if ends = 0 then .CaseOperand else clauseKind depth (ends - 1) paren call ts
    else if ends ≠ 0 then clauseKind depth ends paren call ts
    else if t.isKeyword "WHEN" || t.isKeyword "THEN" || t.isKeyword "ELSE" then .CaseOperand
    else if t.isKeyword "SELECT" then if call then .Unknown else .SelectListItem
    else if t.isKeyword "FROM" then
      if (ts.head?.map fun d => d.isKeyword "DELETE") == some true then .DeleteFromTable
      else .FromTable
    else if t.isKeyword "JOIN" then .JoinTable
    else if t.isKeyword "ON" then .JoinOnOperand
    else if t.isKeyword "WHERE" then .WhereOperand
    else if t.isKeyword "BY" then
      if (ts.head?.map fun g => g.isKeyword "GROUP") == some true then .GroupByItem
      else if (ts.head?.map fun g => g.isKeyword "ORDER") == some true then .OrderByItem
      else .Unknown
    else if t.isKeyword "INTO" then if paren then .InsertColumn else .InsertTargetTable
    else if t.isKeyword "UPDATE" then .UpdateTargetTable
    else if t.isKeyword "SET" then .UpdateSetColumn
    else if t.isKeyword "HAVING" || t.isKeyword "LIMIT" || t.isKeyword "VALUES"
        || t.isKeyword "UNION" || t.isKeyword "INSERT" || t.isKeyword "DELETE" then .Unknown
    else clauseKind depth ends paren call ts

/-- Modelled from the spec: `SubqueryBody` applied once per enclosing subquery. -/
def wrapSubquery : Nat → ContextKind → ContextKind
  | 0, k => k
  | n + 1, k => .SubqueryBody (wrapSubquery n k)

/-! ### Scope analyzer (§4.4) -/

/-- Modelled from the spec: the items of a select list: the tokens after `SELECT` up to `FROM`,
split at the commas, all at depth zero. -/
def selectItems : Nat → List Token → List (List Token)
  | _, [] => [[]]
  | depth, t :: ts =>
    if depth = 0 && t.isKeyword "FROM" then [[]]
    else if depth = 0 && t.isPunct "," then [] :: selectItems 0 ts
    else
      match selectItems (depthAfter depth t) ts with
      | [] => [[t]]
      | s :: rest => (t :: s) :: rest

/-- Modelled from the spec: can an expression end with this token? -/
def Token.endsExpr (t : Token) : Bool :=
  t.kind == .Identifier || t.kind == .QuotedIdentifier || t.kind == .Number
    || t.kind == .String || t.isPunct ")" || t.isKeyword "END"

/-- Modelled from the spec: the alias of a select-list item (its tokens, last first): the
identifier after `AS`, or an identifier that follows the end of an expression. -/
def itemAlias : List Token → Option String
  | a :: e :: _ =>
    if e.isKeyword "AS" || e.endsExpr then a.ident?.map fun i => i.name else none
  | _ => none

/-- Modelled from the spec: the rightmost identifier of an item (its tokens, last first). -/
def rightmostIdent : List Token → Option String
  | [] => none
  | t :: ts =>
    match t.ident? with
    | some i => some i.name
    | none => rightmostIdent ts

/-- Modelled from the spec: the name a select-list item gives its column: "the alias if present,
else the rightmost identifier of the expression, else a synthetic `?column?` name". -/
def itemName (item : List Token) : String :=
  match itemAlias item.reverse with
  | some x => x
  | none =>
    match rightmostIdent item.reverse with
    | some r => r
    | none => "?column?"

/-- Modelled from the spec: `projectionOf` of §4.4, which "extracts, for each select-list item,
the alias if present, else the rightmost identifier of the expression, else a synthetic
`?column?` name". The argument is the significant tokens of the subquery. -/
def projectionOf : List Token → List String
  | [] => []
  | sel :: rest =>
    if sel.isKeyword "SELECT" then
      ((selectItems 0 rest).filter fun item => !item.isEmpty).map itemName
    else []

/-- Modelled from the spec: where the scan of the table-reference positions stands. -/
inductive RefState where
  | idle : RefState
  | skip (depth : Nat) : RefState
  | expect : RefState
  | named (n : Ident) : RefState
  | dotted (d : Ident) : RefState
  | complete (r : TableRef) : RefState
  | aliasing (r : TableRef) : RefState
  | group (depth : Nat) (toks : List Token) : RefState
  | derived (cols : Option (List String)) : RefState
  | derivedAs (cols : Option (List String)) : RefState
  | listed : RefState
  deriving DecidableEq, Repr

/-- Modelled from the spec: the scan outside a table-reference position: a parenthesis is skipped
(a subquery that does not enclose the cursor is not crossed into), `FROM`, `JOIN`, `UPDATE` and
`INTO` open a table-reference position. -/
def idleStep (t : Token) : RefState :=
  if t.isPunct "(" then .skip 0
  else if t.isKeyword "FROM" || t.isKeyword "JOIN" || t.isKeyword "UPDATE"
      || t.isKeyword "INTO" then .expect
  else .idle

/-- Modelled from the spec: the scan after a table reference: a comma opens the next one. -/
def listedStep (t : Token) : RefState :=
  if t.isPunct "," then .expect else idleStep t

/-- Modelled from the spec: the scan after a complete `ident` or `ident.ident`: "optionally
followed by `[AS] alias`". -/
def completeStep (r : TableRef) (t : Token) : List TableRef × RefState :=
  if t.isKeyword "AS" then ([], .aliasing r)
  else
    match t.ident? with
    | some a => ([{ r with aliasId := some a }], .listed)
    | none => ([r], listedStep t)

/-- Modelled from the spec: the reference a subquery with an alias makes: "a `TableRef` with
`table = alias`, `derivedColumns = projectionOf(stmt)`"; a parenthesis that is no subquery makes
none. -/
def subqueryRef (cols : Option (List String)) (a : Ident) : List TableRef :=
  match cols with
  | some cs => [⟨none, a, none, some cs⟩]
  | none => []

/-- Modelled from the spec: one token of the scan: the references completed by it and the state
after it. -/
def refStep : RefState → Token → List TableRef × RefState
  | .idle, t => ([], idleStep t)
  | .listed, t => ([], listedStep t)
  | .skip d, t =>
    if t.isPunct "(" then ([], .skip (d + 1))
    else if t.isPunct ")" then ([], if d = 0 then .idle else .skip (d - 1))
    else ([], .skip d)
  | .expect, t =>
    match t.ident? with
    | some n => ([], .named n)
    | none => if t.isPunct "(" then ([], .group 0 []) else ([], idleStep t)
  | .named n, t =>
    if t.isPunct "." then ([], .dotted n) else completeStep ⟨none, n, none, none⟩ t
  | .dotted d, t =>
    match t.ident? with
    | some n => ([], .complete ⟨some d, n, none, none⟩)
    | none => ([], listedStep t)
  | .complete r, t => completeStep r t
  | .aliasing r, t =>
    match t.ident? with
    | some a => ([{ r with aliasId := some a }], .listed)
    | none => ([r], listedStep t)
  | .group depth toks, t =>
    if t.isPunct "(" then ([], .group (depth + 1) (t :: toks))
    else if t.isPunct ")" then
      if depth = 0 then
        ([], .derived
          (if startsWithSelect toks.reverse then some (projectionOf toks.reverse) else none))
      else ([], .group (depth - 1) (t :: toks))
    else ([], .group depth (t :: toks))
  | .derived cols, t =>
    if t.isKeyword "AS" then ([], .derivedAs cols)
    else
      match t.ident? with
      | some a => (subqueryRef cols a, .listed)
      | none => ([], listedStep t)
  | .derivedAs cols, t =>
    match t.ident? with
    | some a => (subqueryRef cols a, .listed)
    | none => ([], listedStep t)

/-- Modelled from the spec: the references still pending when the statement ends. -/
def refFlush : RefState → List TableRef
  | .named n => [⟨none, n, none, none⟩]
  | .complete r => [r]
  | .aliasing r => [r]
  | _ => []

/-- Modelled from the spec: the scope of §4.4, "the ordered `TableRef` list from all
table-reference positions reachable without crossing into a subquery that does not enclose the
cursor", over the significant tokens of the statement. -/
def tableRefs : RefState → List Token → List TableRef
  | st, [] => refFlush st
  | st, t :: ts => (refStep st t).1 ++ tableRefs (refStep st t).2 ts

/-- Modelled from the spec: the label of a reference: "the alias replaces the table name as the
ref's label". -/
def TableRef.label (r : TableRef) : Ident :=
  r.aliasId.getD r.table

/-- Modelled from the spec: the comparison of `resolveAlias`: "case-insensitively for unquoted
identifiers and exactly for quoted ones". -/
def Ident.same (a b : Ident) : Bool :=
  if a.quoted || b.quoted then a.name == b.name else lower a.name == lower b.name

/-- Modelled from the spec: `resolveAlias(name)` of §4.4, "the `TableRef` whose `alias` (if
any) else `table` equals `name`". -/
def resolveAlias (scope : List TableRef) (name : Ident) : Option TableRef :=
  scope.find? fun r => r.label.same name

/-! ### Catalog and candidate generator (§3, §4.5) -/

/-- Modelled from the spec: the catalog of §3, "a mapping `dbName → {tableName →
[ColumnDesc]}` plus a default database". -/
structure Catalog where
  databases : List (String × List (String × List (ColumnDesc String)))
  defaultDB : String

/-- Modelled from the spec: the tables of a database, in catalog order. -/
def Catalog.tables (cat : Catalog) (db : String) : List (String × List (ColumnDesc String)) :=
  (cat.databases.lookup db).getD []

/-- Modelled from the spec: is this the name of a database of the catalog? -/
def Catalog.isDatabase (cat : Catalog) (db : String) : Bool :=
  (cat.databases.lookup db).isSome

/-- Modelled from the spec: the column names of a reference: its derived columns if it is a
subquery, otherwise those of its table in the catalog (in its database, or the default one), in
catalog order. -/
def columnsOf (cat : Catalog) (r : TableRef) : List String :=
  match r.derivedColumns with
  | some cs => cs
  | none =>
    (((cat.tables ((r.db.map fun d => d.name).getD cat.defaultDB)).lookup r.table.name).getD
      []).map fun c => c.Name

/-- Modelled from the spec: the tables of the default database that the scope does not refer to.
-/
def otherTables (cat : Catalog) (scope : List TableRef) : List String :=
  ((cat.tables cat.defaultDB).map fun t => t.1).filter fun name =>
    !scope.any fun r => r.derivedColumns.isNone && r.table.name == name

/-- Modelled from the spec: the generation matrix of §4.5, as labels in the order listed; with
the fallback of §7, "if scope resolution yields no tables, the generator falls back to keyword
candidates". -/
def generate (cat : Catalog) (scope : List TableRef) : ContextKind → Option Ident → List String
  | .SubqueryBody inner, dp => generate cat scope inner dp
  | .Unknown, none => keywordSet
  | .Unknown, some _ => []
  | .InsertColumn, none => (scope.head?.map (columnsOf cat)).getD []
  | .InsertColumn, some _ => []
  | .UpdateSetColumn, none => (scope.head?.map (columnsOf cat)).getD []
  | .UpdateSetColumn, some _ => []
  | .FromTable, dp => tableLabels dp
  | .JoinTable, dp => tableLabels dp
  | .InsertTargetTable, dp => tableLabels dp
  | .UpdateTargetTable, dp => tableLabels dp
  | .DeleteFromTable, dp => tableLabels dp
  | .SelectListItem, dp => exprLabels dp
  | .WhereOperand, dp => exprLabels dp
  | .JoinOnOperand, dp => exprLabels dp
  | .GroupByItem, dp => exprLabels dp
  | .OrderByItem, dp => exprLabels dp
  | .CaseOperand, dp => exprLabels dp
where
  /-- The second row of the matrix: "tables of the default database; then other database
  names", the database names being all those of the catalog (the reference case `from tables`
  expects the default database among them). -/
  tableLabels : Option Ident → List String
    | none => ((cat.tables cat.defaultDB).map fun t => t.1) ++ cat.databases.map fun d => d.1
    | some x => if cat.isDatabase x.name then (cat.tables x.name).map fun t => t.1 else []
  /-- The first row of the matrix. -/
  exprLabels : Option Ident → List String
    | none =>
      if scope.isEmpty then keywordSet
      else
        scope.flatMap (columnsOf cat) ++ scope.map (fun r => r.label.name)
          ++ otherTables cat scope
    | some x =>
      match resolveAlias scope x with
      | some r => columnsOf cat r
      | none => if cat.isDatabase x.name then (cat.tables x.name).map fun t => t.1 else []

/-- Modelled from the spec: does `p` occur in the list as a contiguous run? (the substring test
of the filter of §4.5). -/
def hasInfix (p : List Char) : List Char → Bool
  | [] => p.isEmpty
  | c :: cs => p.isPrefixOf (c :: cs) || hasInfix p cs

/-- Modelled from the spec: the filter of §4.5, which "retains candidates whose label contains
`prefixText` as a case-insensitive substring if a prefix is present; otherwise all are kept". -/
def prefixFilter (prefixText : String) (labels : List String) : List String :=
  if prefixText.isEmpty then labels
  else labels.filter fun l => hasInfix (lower prefixText).data (lower l).data

/-! ### The engine -/

/-- Modelled from the spec: the innermost statement around the cursor: the tokens of the focused
statement left of the word being typed and those from the word on give, when a subquery encloses
the cursor, the tokens of the innermost one left of the word and the tokens of that subquery. -/
def innermost (left rest : List Token) : List Token × List Token :=
  match enclosing 0 left.reverse [] with
  | [] => (left, left ++ rest)
  | inner :: _ => (inner, inner ++ untilClose (openDepth inner) rest)

/-- Modelled from the spec: the cursor locator of §4.3 on the focused statement. -/
def locate (stmt : List Token) (off : Nat) : CompletionContext :=
  let c := cut stmt off
  let left := leftOfWord c.1 c.2.1
  let inner := innermost left (stmt.drop left.length)
  { kind := wrapSubquery (enclosing 0 left.reverse []).length
      (clauseKind 0 0 false false (significant inner.1).reverse)
    dottedPrefix := dottedPrefixOf left.reverse
    prefixText := prefixTextOf c.1 c.2.1 }

/-- Modelled from the spec: the scope analyzer of §4.4 on the focused statement, "when the
cursor sits inside a subquery, the scope is that of the innermost enclosing statement only". -/
def scopeAt (stmt : List Token) (off : Nat) : List TableRef :=
  let c := cut stmt off
  let left := leftOfWord c.1 c.2.1
  tableRefs .idle (significant (innermost left (stmt.drop left.length)).2)

/-- Modelled from the spec: the labels of the candidates for a cursor in a statement. -/
def completeStatement (cat : Catalog) (stmt : List Token) (off : Nat) : List String :=
  let ctx := locate stmt off
  prefixFilter ctx.prefixText (generate cat (scopeAt stmt off) ctx.kind ctx.dottedPrefix)

/-- Modelled from the spec: the labels of the candidates for a cursor in a tokenized document: the
control flow of §2 after the tokenizer. -/
def completeTokens (cat : Catalog) (toks : List Token) (offset : Nat) : List String :=
  let f := focus (splitStatements 0 toks) offset
  completeStatement cat f.1 f.2

/-- Modelled from the spec: the completion engine of §2, "text buffer + offset → Tokenizer →
Parser → focused-statement selection → Cursor locator → Scope analyzer (consults Catalog
cache) → Candidate generator → candidate list", as the labels of the list. -/
def complete (cat : Catalog) (input : String) (offset : Nat) : List String :=
  completeTokens cat (tokenize input) offset

/-- A column of the mock catalog; §8 gives the names only. -/
def column (name : String) : ColumnDesc String := ⟨name, "", "", "", "", ""⟩

/-- Modelled from the spec: the catalog of the concrete scenarios of §8, the MySQL `world`
schema, with `world` the default database. -/
def worldCatalog : Catalog where
  databases :=
    [("information_schema", []), ("mysql", []), ("performance_schema", []), ("sys", []),
     ("world",
       [("city", ["ID", "Name", "CountryCode", "District", "Population"].map column),
        ("country",
          ["Code", "Name", "CountryCode", "Continent", "Region", "SurfaceArea", "IndepYear",
           "LifeExpectancy", "GNP", "GNPOld", "LocalName", "GovernmentForm", "HeadOfState",
           "Capital", "Code2"].map column),
        ("countrylanguage", ["CountryCode", "Language", "IsOfficial", "Percentage"].map column)])]
  defaultDB := "world"

/-! ### Documents as runs of tokens -/

/-- The statement boundary token. -/
def semi : Token := ⟨.Punct, ";"⟩

/-- A single blank. -/
def ws : Token := ⟨.Whitespace, " "⟩

/-- The parenthesis depth a run of tokens ends at when it is read from `depth` and holds no
statement boundary (no `;` at depth zero); `none` when it holds one. -/
def bodyDepth : Nat → List Token → Option Nat
  | depth, [] => some depth
  | depth, t :: ts =>
    if t.isPunct ";" && depth == 0 then none else bodyDepth (depthAfter depth t) ts

/-- The tokens of a document made of these statement bodies, each closed by `;`. -/
def joinStatements : List (List Token) → List Token
  | [] => []
  | s :: rest => s ++ semi :: joinStatements rest

/-- Modelled from the spec: the conversion of §6 from a zero-based line/character position to
an offset into the text, for texts of one-unit characters. -/
def offsetOf (input : String) (line col : Nat) : Nat :=
  go input.data line + col
where
  /-- The offset at which line `line` starts. -/
  go : List Char → Nat → Nat
    | _, 0 => 0
    | [], _ => 0
    | c :: cs, n + 1 => if c == Char.ofNat 10 then 1 + go cs n else 1 + go cs (n + 1)

/-- The modelled engine on the catalog of §8 as the server of the reference tests. -/
def modelServer : Server where
  didChangeConfiguration := none
  didOpen := fun _ => none
  testFile := fun _ => []
  completion := fun text line col =>
    .ok ((complete worldCatalog text (offsetOf text line.toNat col.toNat)).map fun l =>
      ⟨l, 0, "", ""⟩)

theorem scanRows_ok_of_forall {Cell α Err : Type} (scan : List Cell → Except Err α) :
    ∀ rows : List (List Cell), (∀ cells ∈ rows, ∃ v, scan cells = .ok v) →
      ∃ vs, scanRows scan rows = .ok vs ∧
        List.Forall₂ (fun cells v => scan cells = .ok v) rows vs
  | [], _ => ⟨[], rfl, List.Forall₂.nil⟩
  | cells :: rest, h => by
    obtain ⟨v, hv⟩ := h cells (List.mem_cons_self _ _)
    obtain ⟨vs, hvs, hall⟩ :=
      scanRows_ok_of_forall scan rest (fun c hc => h c (List.mem_cons_of_mem _ hc))
    exact ⟨v :: vs, by simp [scanRows, hv, hvs], List.Forall₂.cons hv hall⟩

theorem scanRows_ok_forall₂ {Cell α Err : Type} (scan : List Cell → Except Err α) :
    ∀ (rows : List (List Cell)) (vs : List α), scanRows scan rows = .ok vs →
      List.Forall₂ (fun cells v => scan cells = .ok v) rows vs
  | [], vs, h => by
    simp [scanRows] at h; subst h; exact List.Forall₂.nil
  | cells :: rest, vs, h => by
    simp only [scanRows] at h
    cases hv : scan cells with
    | error e => rw [hv] at h; cases h
    | ok v =>
      rw [hv] at h
      cases hr : scanRows scan rest with
      | error e => rw [hr] at h; cases h
      | ok ws =>
        rw [hr] at h
        cases h
        exact List.Forall₂.cons hv (scanRows_ok_forall₂ scan rest ws hr)

theorem scanRows_error_of_first {Cell α Err : Type} (scan : List Cell → Except Err α)
    (cells : List Cell) (post : List (List Cell)) (e : Err) (hfail : scan cells = .error e) :
    ∀ pre : List (List Cell), (∀ c ∈ pre, ∃ v, scan c = .ok v) →
      scanRows scan (pre ++ cells :: post) = .error e
  | [], _ => by simp [scanRows, hfail]
  | c :: pre, h => by
    obtain ⟨v, hv⟩ := h c (List.mem_cons_self _ _)
    have ih := scanRows_error_of_first scan cells post e hfail pre
      (fun c hc => h c (List.mem_cons_of_mem _ hc))
    simp [scanRows, hv, ih]

theorem Databases_loop_eq {Cell V Err R : Type} (drv : Driver Cell V Err R) :
    ∀ (rows : List (Fetch Cell Err)) (acc : List V),
      MySQLDB.Databases.loop drv rows (.items acc) =
        match scanRows (scanString drv) (delivered rows) with
        | .ok vs => (.items (acc ++ vs), none)
        | .error e => (.null, some e)
  | [], acc => by simp [MySQLDB.Databases.loop, delivered, scanRows]
  | .lost _ _ :: _, acc => by simp [MySQLDB.Databases.loop, delivered, scanRows]
  | .row cells :: rest, acc => by
    simp only [MySQLDB.Databases.loop, delivered, scanRows]
    cases hv : scanString drv cells with
    | error e => rfl
    | ok v =>
      simp only [Slice.append]
      rw [Databases_loop_eq drv rest (acc ++ [v])]
      cases scanRows (scanString drv) (delivered rest) with
      | error e => rfl
      | ok vs => simp

theorem Tables_loop_eq {Cell V Err R : Type} (drv : Driver Cell V Err R) :
    ∀ (rows : List (Fetch Cell Err)) (acc : Slice V),
      MySQLDB.Tables.loop drv rows acc = MySQLDB.Databases.loop drv rows acc
  | [], acc => rfl
  | .lost _ _ :: _, acc => rfl
  | .row cells :: rest, acc => by
    simp only [MySQLDB.Tables.loop, MySQLDB.Databases.loop]
    cases scanString drv cells with
    | error e => rfl
    | ok v => exact Tables_loop_eq drv rest _

theorem DescribeTable_loop_fst {Cell V Err R : Type} (drv : Driver Cell V Err R) :
    ∀ (rows : List (Fetch Cell Err)) (heap : List (ColumnDesc V)) (acc : List Nat),
      (MySQLDB.DescribeTable.loop drv rows heap (.items acc)).1 =
        match scanRows (scanColumnDesc drv) (delivered rows) with
        | .ok ds => (.items (acc ++ List.range' heap.length ds.length), none)
        | .error e => (.null, some e)
  | [], heap, acc => by simp [MySQLDB.DescribeTable.loop, delivered, scanRows]
  | .lost _ _ :: _, heap, acc => by simp [MySQLDB.DescribeTable.loop, delivered, scanRows]
  | .row cells :: rest, heap, acc => by
    simp only [MySQLDB.DescribeTable.loop, delivered, scanRows]
    cases hv : scanColumnDesc drv cells with
    | error e => rfl
    | ok d =>
      simp only [Slice.append]
      rw [DescribeTable_loop_fst drv rest (heap ++ [d]) (acc ++ [heap.length])]
      cases scanRows (scanColumnDesc drv) (delivered rest) with
      | error e => rfl
      | ok ds =>
        simp [List.range'_succ]

theorem DescribeTable_loop_snd {Cell V Err R : Type} (drv : Driver Cell V Err R) :
    ∀ (rows : List (Fetch Cell Err)) (heap : List (ColumnDesc V)) (acc : List Nat)
      (ds : List (ColumnDesc V)), scanRows (scanColumnDesc drv) (delivered rows) = .ok ds →
      (MySQLDB.DescribeTable.loop drv rows heap (.items acc)).2 = heap ++ ds
  | [], heap, acc, ds, h => by
    simp [delivered, scanRows] at h
    simp [MySQLDB.DescribeTable.loop, ← h]
  | .lost _ _ :: _, heap, acc, ds, h => by
    simp [delivered, scanRows] at h
    simp [MySQLDB.DescribeTable.loop, ← h]
  | .row cells :: rest, heap, acc, ds, h => by
    simp only [delivered, scanRows] at h
    simp only [MySQLDB.DescribeTable.loop]
    cases hv : scanColumnDesc drv cells with
    | error e => rw [hv] at h; cases h
    | ok d =>
      rw [hv] at h
      cases hr : scanRows (scanColumnDesc drv) (delivered rest) with
      | error e => rw [hr] at h; cases h
      | ok ws =>
        rw [hr] at h
        cases h
        simp only [Slice.append]
        rw [DescribeTable_loop_snd drv rest (heap ++ [d]) (acc ++ [heap.length]) ws hr]
        simp

theorem scanColumnDesc_ok {Cell V Err R : Type} (drv : Driver Cell V Err R)
    (cells : List Cell) (d : ColumnDesc V) (h : scanColumnDesc drv cells = .ok d) :
    ∃ c0 c1 c2 c3 c4 c5, cells = [c0, c1, c2, c3, c4, c5] ∧
      drv.toField 0 c0 = .ok d.Name ∧ drv.toField 1 c1 = .ok d.Typ ∧
      drv.toField 2 c2 = .ok d.Null ∧ drv.toField 3 c3 = .ok d.Key ∧
      drv.toField 4 c4 = .ok d.Default ∧ drv.toField 5 c5 = .ok d.Extra := by
  unfold scanColumnDesc at h
  split at h
  · rename_i c0 c1 c2 c3 c4 c5
    refine ⟨c0, c1, c2, c3, c4, c5, rfl, ?_⟩
    cases h0 : drv.toField 0 c0 <;> simp [h0, bind, Except.bind] at h
    cases h1 : drv.toField 1 c1 <;> simp [h1] at h
    cases h2 : drv.toField 2 c2 <;> simp [h2] at h
    cases h3 : drv.toField 3 c3 <;> simp [h3] at h
    cases h4 : drv.toField 4 c4 <;> simp [h4] at h
    cases h5 : drv.toField 5 c5 <;> simp [h5, pure, Except.pure] at h
    subst h
    exact ⟨rfl, rfl, rfl, rfl, rfl, rfl⟩
  · cases h

/-! ## The loader: statements of the specification -/

/-- C1: for the MySQL loader, `Databases()` and `Tables()` preserve result-set order. When the
query succeeds and every delivered row scans successfully, the call returns no error and a
non-nil list holding exactly one name per delivered row, the name scanned from that row, in
delivery order; the list is empty and non-nil when no row is delivered, and it covers the whole
result set when no fetch fails. -/
theorem databases_tables_preserve_order {Cell V Err R : Type} (drv : Driver Cell V Err R)
    (db : MySQLDB) (conn : SqlDB) (hconn : db.Conn = some conn) :
    (∀ rows, drv.query conn "SHOW DATABASES" = .ok rows →
      (∀ cells ∈ delivered rows, ∃ v, scanString drv cells = .ok v) →
      ∃ names,
        MySQLDB.Databases drv db = some ⟨.items names, none, [Call.Query "SHOW DATABASES"]⟩ ∧
        List.Forall₂ (fun cells v => scanString drv cells = .ok v) (delivered rows) names ∧
        (delivered rows = [] → names = []) ∧
        (allDelivered rows →
          List.Forall₂ (fun cells v => scanString drv cells = .ok v)
            (rows.map Fetch.cells) names)) ∧
    (∀ rows, drv.query conn "SHOW TABLES" = .ok rows →
      (∀ cells ∈ delivered rows, ∃ v, scanString drv cells = .ok v) →
      ∃ names,
        MySQLDB.Tables drv db = some ⟨.items names, none, [Call.Query "SHOW TABLES"]⟩ ∧
        List.Forall₂ (fun cells v => scanString drv cells = .ok v) (delivered rows) names ∧
        (delivered rows = [] → names = []) ∧
        (allDelivered rows →
          List.Forall₂ (fun cells v => scanString drv cells = .ok v)
            (rows.map Fetch.cells) names)) := by
  constructor
  · intro rows hq hs
    obtain ⟨names, hn, hall⟩ := scanRows_ok_of_forall (scanString drv) (delivered rows) hs
    refine ⟨names, ?_, hall, ?_, ?_⟩
    · simp [MySQLDB.Databases, hconn, hq, Databases_loop_eq, hn]
    · intro h0
      rw [h0] at hall
      cases hall
      rfl
    · intro had
      rw [← had]
      exact hall
  · intro rows hq hs
    obtain ⟨names, hn, hall⟩ := scanRows_ok_of_forall (scanString drv) (delivered rows) hs
    refine ⟨names, ?_, hall, ?_, ?_⟩
    · simp [MySQLDB.Tables, hconn, hq, Tables_loop_eq, Databases_loop_eq, hn]
    · intro h0
      rw [h0] at hall
      cases hall
      rfl
    · intro had
      rw [← had]
      exact hall

/-- C1 at the `world` server: the hypotheses hold there, and the lists are the three databases
and the three tables in server order. -/
theorem databases_tables_preserve_order_witness :
    (∃ names,
      MySQLDB.Databases worldDriver worldDB
        = some ⟨.items names, none, [Call.Query "SHOW DATABASES"]⟩ ∧
      List.Forall₂ (fun cells v => scanString worldDriver cells = .ok v)
        [[some "information_schema"], [some "mysql"], [some "world"]] names) ∧
    MySQLDB.Databases worldDriver worldDB
      = some ⟨.items ["information_schema", "mysql", "world"], none,
          [Call.Query "SHOW DATABASES"]⟩ ∧
    MySQLDB.Tables worldDriver worldDB
      = some ⟨.items ["city", "country", "countrylanguage"], none,
          [Call.Query "SHOW TABLES"]⟩ := by
  refine ⟨?_, rfl, rfl⟩
  obtain ⟨names, hd, hall, -, -⟩ :=
    (databases_tables_preserve_order worldDriver worldDB
      ⟨"mysql", "root@tcp(127.0.0.1:3306)/world"⟩ rfl).1
      [.row [some "information_schema"], .row [some "mysql"], .row [some "world"]] rfl
      (by
        intro cells hc
        simp only [delivered, List.mem_cons, List.mem_singleton, List.not_mem_nil,
          or_false] at hc
        rcases hc with rfl | rfl | rfl <;> exact ⟨_, rfl⟩)
  exact ⟨names, hd, hall⟩

/-- C2: for the MySQL loader, a failure while loading must not come back as a successful
shorter result. The code does not meet it: on a result set of three rows whose second fetch
fails with `invalid connection`, `Databases()`, `Tables()` and `DescribeTable(name)` each return
a nil error and only the entry of the first row (`rows.Err()` is never consulted). -/
theorem lost_row_returned_as_success :
    flakyDriver.query ⟨"mysql", "root@tcp(127.0.0.1:3306)/world"⟩ "SHOW DATABASES"
      = .ok [.row [some "information_schema"], .lost [some "mysql"] "invalid connection",
          .row [some "world"]] ∧
    iterErr [Fetch.row [some "information_schema"], .lost [some "mysql"] "invalid connection",
      .row [some "world"]] = some "invalid connection" ∧
    MySQLDB.Databases flakyDriver worldDB
      = some ⟨.items ["information_schema"], none, [Call.Query "SHOW DATABASES"]⟩ ∧
    MySQLDB.Tables flakyDriver worldDB
      = some ⟨.items ["city"], none, [Call.Query "SHOW TABLES"]⟩ ∧
    MySQLDB.DescribeTable flakyDriver worldDB [] "countrylanguage"
      = some (⟨.items [0], none, [Call.Query "DESC countrylanguage"]⟩,
          [⟨"CountryCode", "char(3)", "NO", "PRI", "", ""⟩]) :=
  ⟨rfl, rfl, rfl, rfl, rfl⟩

/-- C3: for each of `Databases()`, `Tables()` and `DescribeTable(name)` of the MySQL loader: if
issuing the query fails, the call returns that error with a nil list; if the scan of a delivered
row fails (the rows before it having scanned), the call returns that scan error with a nil
list, the entries read from the earlier rows being discarded; and whatever happens, a result
with an error carries the nil list. -/
theorem loader_error_has_nil_list {Cell V Err R : Type} (drv : Driver Cell V Err R)
    (db : MySQLDB) (conn : SqlDB) (heap : List (ColumnDesc V)) (tableName : String)
    (hconn : db.Conn = some conn) :
    ((∀ e, drv.query conn "SHOW DATABASES" = .error e →
        MySQLDB.Databases drv db = some ⟨.null, some e, [Call.Query "SHOW DATABASES"]⟩) ∧
      (∀ e, drv.query conn "SHOW TABLES" = .error e →
        MySQLDB.Tables drv db = some ⟨.null, some e, [Call.Query "SHOW TABLES"]⟩) ∧
      (∀ e, drv.query conn ("DESC " ++ tableName) = .error e →
        MySQLDB.DescribeTable drv db heap tableName
          = some (⟨.null, some e, [Call.Query ("DESC " ++ tableName)]⟩, heap))) ∧
    ((∀ rows pre cells post e, drv.query conn "SHOW DATABASES" = .ok rows →
        delivered rows = pre ++ cells :: post →
        (∀ c ∈ pre, ∃ v, scanString drv c = .ok v) → scanString drv cells = .error e →
        MySQLDB.Databases drv db = some ⟨.null, some e, [Call.Query "SHOW DATABASES"]⟩) ∧
      (∀ rows pre cells post e, drv.query conn "SHOW TABLES" = .ok rows →
        delivered rows = pre ++ cells :: post →
        (∀ c ∈ pre, ∃ v, scanString drv c = .ok v) → scanString drv cells = .error e →
        MySQLDB.Tables drv db = some ⟨.null, some e, [Call.Query "SHOW TABLES"]⟩) ∧
      (∀ rows pre cells post e, drv.query conn ("DESC " ++ tableName) = .ok rows →
        delivered rows = pre ++ cells :: post →
        (∀ c ∈ pre, ∃ d, scanColumnDesc drv c = .ok d) → scanColumnDesc drv cells = .error e →
        ∃ heap1, MySQLDB.DescribeTable drv db heap tableName
          = some (⟨.null, some e, [Call.Query ("DESC " ++ tableName)]⟩, heap1))) ∧
    ((∀ r, MySQLDB.Databases drv db = some r → r.err ≠ none → r.val = .null) ∧
      (∀ r, MySQLDB.Tables drv db = some r → r.err ≠ none → r.val = .null) ∧
      (∀ r, MySQLDB.DescribeTable drv db heap tableName = some r →
        r.1.err ≠ none → r.1.val = .null)) := by
  refine ⟨⟨?_, ?_, ?_⟩, ⟨?_, ?_, ?_⟩, ⟨?_, ?_, ?_⟩⟩
  · intro e hq
    simp [MySQLDB.Databases, hconn, hq]
  · intro e hq
    simp [MySQLDB.Tables, hconn, hq]
  · intro e hq
    simp [MySQLDB.DescribeTable, hconn, hq]
  · intro rows pre cells post e hq hd hpre hfail
    have h := scanRows_error_of_first (scanString drv) cells post e hfail pre hpre
    simp [MySQLDB.Databases, hconn, hq, Databases_loop_eq, hd, h]
  · intro rows pre cells post e hq hd hpre hfail
    have h := scanRows_error_of_first (scanString drv) cells post e hfail pre hpre
    simp [MySQLDB.Tables, hconn, hq, Tables_loop_eq, Databases_loop_eq, hd, h]
  · intro rows pre cells post e hq hd hpre hfail
    have h := scanRows_error_of_first (scanColumnDesc drv) cells post e hfail pre hpre
    refine ⟨(MySQLDB.DescribeTable.loop drv rows heap (.items [])).2, ?_⟩
    have h1 := DescribeTable_loop_fst drv rows heap []
    rw [hd, h] at h1
    simp only [MySQLDB.DescribeTable, hconn, hq, h1]
  · intro r hr hne
    simp only [MySQLDB.Databases, hconn] at hr
    cases hq : drv.query conn "SHOW DATABASES" with
    | error e => rw [hq] at hr; cases hr; rfl
    | ok rows =>
      rw [hq] at hr
      simp only [Databases_loop_eq] at hr
      cases hs : scanRows (scanString drv) (delivered rows) with
      | error e => rw [hs] at hr; cases hr; rfl
      | ok vs => rw [hs] at hr; cases hr; exact absurd rfl hne
  · intro r hr hne
    simp only [MySQLDB.Tables, hconn] at hr
    cases hq : drv.query conn "SHOW TABLES" with
    | error e => rw [hq] at hr; cases hr; rfl
    | ok rows =>
      rw [hq] at hr
      simp only [Tables_loop_eq, Databases_loop_eq] at hr
      cases hs : scanRows (scanString drv) (delivered rows) with
      | error e => rw [hs] at hr; cases hr; rfl
      | ok vs => rw [hs] at hr; cases hr; exact absurd rfl hne
  · intro r hr hne
    simp only [MySQLDB.DescribeTable, hconn] at hr
    cases hq : drv.query conn ("DESC " ++ tableName) with
    | error e => rw [hq] at hr; cases hr; rfl
    | ok rows =>
      rw [hq] at hr
      have h1 := DescribeTable_loop_fst drv rows heap []
      cases hs : scanRows (scanColumnDesc drv) (delivered rows) with
      | error e =>
        rw [hs] at h1
        simp only [Option.some.injEq] at hr
        subst hr
        simp only [h1]
      | ok vs =>
        rw [hs] at h1
        simp only [Option.some.injEq] at hr
        subst hr
        simp only [h1] at hne
        exact absurd rfl hne

/-- C3 at two servers: a table the `world` server does not know (the query fails), and a server
whose second row holds a NULL name (the scan fails after the first row was read). -/
theorem loader_error_has_nil_list_witness :
    MySQLDB.DescribeTable worldDriver worldDB [] "nosuch"
      = some (⟨.null, some "Error 1146: Table does not exist", [Call.Query "DESC nosuch"]⟩, []) ∧
    MySQLDB.Tables nullDriver worldDB
      = some ⟨.null, some "sql: converting NULL to string is unsupported",
          [Call.Query "SHOW TABLES"]⟩ :=
  have h := loader_error_has_nil_list worldDriver worldDB
    ⟨"mysql", "root@tcp(127.0.0.1:3306)/world"⟩ [] "nosuch" rfl
  have h2 := loader_error_has_nil_list nullDriver worldDB
    ⟨"mysql", "root@tcp(127.0.0.1:3306)/world"⟩ [] "nosuch" rfl
  ⟨h.1.2.2 _ rfl,
    h2.2.1.2.1 [.row [some "city"], .row [none], .row [some "countrylanguage"]]
      [[some "city"]] [none] [[some "countrylanguage"]] _ rfl rfl
      (by intro c hc; simp only [List.mem_singleton] at hc; subst hc; exact ⟨_, rfl⟩) rfl⟩

/-- C4: `DescribeTable(tableName)` of the MySQL loader issues exactly the query `"DESC "`
followed by `tableName`; when the query and every row scan succeed it returns, without error,
one descriptor address per delivered row in row order, where the addresses are pairwise
distinct and fresh (no descriptor that existed before is touched), and the descriptor at the
address of a row holds that row's six columns converted positionally into `Name`, `Type`,
`Null`, `Key`, `Default` and `Extra`. -/
theorem describeTable_one_descriptor_per_row {Cell V Err R : Type} (drv : Driver Cell V Err R)
    (db : MySQLDB) (conn : SqlDB) (heap : List (ColumnDesc V)) (tableName : String)
    (hconn : db.Conn = some conn) :
    (∀ r, MySQLDB.DescribeTable drv db heap tableName = some r →
      r.1.calls = [Call.Query ("DESC " ++ tableName)]) ∧
    (∀ rows, drv.query conn ("DESC " ++ tableName) = .ok rows →
      (∀ cells ∈ delivered rows, ∃ d, scanColumnDesc drv cells = .ok d) →
      ∃ ptrs heap1,
        MySQLDB.DescribeTable drv db heap tableName
          = some (⟨.items ptrs, none, [Call.Query ("DESC " ++ tableName)]⟩, heap1) ∧
        ptrs.Nodup ∧ (∀ p ∈ ptrs, heap.length ≤ p) ∧ heap <+: heap1 ∧
        List.Forall₂
          (fun cells p => ∃ c0 c1 c2 c3 c4 c5 d, cells = [c0, c1, c2, c3, c4, c5] ∧
            heap1[p]? = some d ∧
            drv.toField 0 c0 = .ok d.Name ∧ drv.toField 1 c1 = .ok d.Typ ∧
            drv.toField 2 c2 = .ok d.Null ∧ drv.toField 3 c3 = .ok d.Key ∧
            drv.toField 4 c4 = .ok d.Default ∧ drv.toField 5 c5 = .ok d.Extra)
          (delivered rows) ptrs) := by
  constructor
  · intro r hr
    simp only [MySQLDB.DescribeTable, hconn] at hr
    cases hq : drv.query conn ("DESC " ++ tableName) with
    | error e => rw [hq] at hr; cases hr; rfl
    | ok rows =>
      rw [hq] at hr
      simp only [Option.some.injEq] at hr
      subst hr
      rfl
  · intro rows hq hs
    obtain ⟨ds, hds, hall⟩ := scanRows_ok_of_forall (scanColumnDesc drv) (delivered rows) hs
    have h1 := DescribeTable_loop_fst drv rows heap []
    have h2 := DescribeTable_loop_snd drv rows heap [] ds hds
    rw [hds] at h1
    refine ⟨List.range' heap.length ds.length, heap ++ ds, ?_, ?_, ?_, ?_, ?_⟩
    · simp only [MySQLDB.DescribeTable, hconn, hq, h1, h2, List.nil_append]
    · exact List.nodup_range' _ _
    · intro p hp
      rw [List.mem_range'_1] at hp
      exact hp.1
    · exact List.prefix_append _ _
    · have key : ∀ (rs : List (List Cell)) (ds : List (ColumnDesc V)) (pre : List (ColumnDesc V)),
          List.Forall₂ (fun cells v => scanColumnDesc drv cells = .ok v) rs ds →
          List.Forall₂
            (fun cells p => ∃ c0 c1 c2 c3 c4 c5 d, cells = [c0, c1, c2, c3, c4, c5] ∧
              (pre ++ ds)[p]? = some d ∧
              drv.toField 0 c0 = .ok d.Name ∧ drv.toField 1 c1 = .ok d.Typ ∧
              drv.toField 2 c2 = .ok d.Null ∧ drv.toField 3 c3 = .ok d.Key ∧
              drv.toField 4 c4 = .ok d.Default ∧ drv.toField 5 c5 = .ok d.Extra)
            rs (List.range' pre.length ds.length) := by
        intro rs ds pre hf
        induction hf generalizing pre with
        | nil => exact List.Forall₂.nil
        | @cons cells d rs ds hd _ ih =>
          rw [List.length_cons, List.range'_succ]
          refine List.Forall₂.cons ?_ ?_
          · obtain ⟨c0, c1, c2, c3, c4, c5, hc, hfields⟩ := scanColumnDesc_ok drv cells d hd
            exact ⟨c0, c1, c2, c3, c4, c5, d, hc,
              by rw [List.getElem?_append_right (le_refl _)]; simp, hfields⟩
          · have := ih (pre ++ [d])
            simpa using this
      exact key (delivered rows) ds heap hall

/-- C4 at the `world` server: two columns of `countrylanguage`, two fresh descriptors after
the one the heap already held. -/
theorem describeTable_one_descriptor_per_row_witness :
    worldDB.Conn = some ⟨"mysql", "root@tcp(127.0.0.1:3306)/world"⟩ ∧
    (∀ r, MySQLDB.DescribeTable worldDriver worldDB [⟨"ID", "int(11)", "NO", "PRI", "", ""⟩]
        "countrylanguage" = some r → r.1.calls = [Call.Query "DESC countrylanguage"]) ∧
    MySQLDB.DescribeTable worldDriver worldDB [⟨"ID", "int(11)", "NO", "PRI", "", ""⟩]
        "countrylanguage"
      = some (⟨.items [1, 2], none, [Call.Query "DESC countrylanguage"]⟩,
          [⟨"ID", "int(11)", "NO", "PRI", "", ""⟩,
           ⟨"CountryCode", "char(3)", "NO", "PRI", "", ""⟩,
           ⟨"Language", "char(30)", "NO", "PRI", "", ""⟩]) :=
  ⟨rfl,
    (describeTable_one_descriptor_per_row worldDriver worldDB
      ⟨"mysql", "root@tcp(127.0.0.1:3306)/world"⟩ [⟨"ID", "int(11)", "NO", "PRI", "", ""⟩]
      "countrylanguage" rfl).1,
    rfl⟩

/-- C5: `SwitchDB(name)` of the MySQL loader never fails: for every name, the empty string
included, it returns nil, the stored database name is `name` afterwards, `dataSourceName`,
`Option` and `Conn` are as before, and no library call is made (the connection is neither
closed nor reopened). -/
theorem switchDB_sets_only_dbName (Err : Type) (db : MySQLDB) (name : String) :
    (MySQLDB.SwitchDB Err db name).1 = none ∧
    (MySQLDB.SwitchDB Err db name).2.1.dbName = name ∧
    (MySQLDB.SwitchDB Err db name).2.1.dataSourceName = db.dataSourceName ∧
    (MySQLDB.SwitchDB Err db name).2.1.Option = db.Option ∧
    (MySQLDB.SwitchDB Err db name).2.1.Conn = db.Conn ∧
    (MySQLDB.SwitchDB Err db name).2.2 = [] :=
  ⟨rfl, rfl, rfl, rfl, rfl, rfl⟩

/-- C9: `Open` of the MySQL loader chooses its connection string from the stored database
name. With an empty name, `dataSourceName` itself is the only string passed to `sql.Open` and
`ParseDSN` is not called. With a non-empty name and a DSN that parses, the only string passed
to `sql.Open` is the parsed configuration re-formatted with its database name replaced by the
stored one. With a non-empty name and a DSN that does not parse, `Open` returns the parse
error, calls `sql.Open` not at all and leaves the loader, `Conn` included, as it was.
Consequently, after `SwitchDB(n)` with non-empty `n`, an `Open` that succeeds holds a connection
opened with the configuration of `dataSourceName` carrying database name `n`, whatever database
name `dataSourceName` carried. -/
theorem open_connection_string {Cell V Err R : Type} (drv : Driver Cell V Err R)
    (dfltIdle dfltOpen : Int) (db : MySQLDB) :
    (db.dbName = "" →
      (∀ s, Call.ParseDSN s ∉ (MySQLDB.Open drv dfltIdle dfltOpen db).2.2) ∧
      Call.sqlOpen "mysql" db.dataSourceName ∈ (MySQLDB.Open drv dfltIdle dfltOpen db).2.2 ∧
      (∀ d c, Call.sqlOpen d c ∈ (MySQLDB.Open drv dfltIdle dfltOpen db).2.2 →
        c = db.dataSourceName) ∧
      ((MySQLDB.Open drv dfltIdle dfltOpen db).1 = none →
        (MySQLDB.Open drv dfltIdle dfltOpen db).2.1.Conn
          = some ⟨"mysql", db.dataSourceName⟩)) ∧
    (db.dbName ≠ "" → ∀ cfg, drv.parseDSN db.dataSourceName = .ok cfg →
      Call.ParseDSN db.dataSourceName ∈ (MySQLDB.Open drv dfltIdle dfltOpen db).2.2 ∧
      Call.sqlOpen "mysql" (drv.formatDSN (db.dbName, cfg.2))
        ∈ (MySQLDB.Open drv dfltIdle dfltOpen db).2.2 ∧
      (∀ d c, Call.sqlOpen d c ∈ (MySQLDB.Open drv dfltIdle dfltOpen db).2.2 →
        c = drv.formatDSN (db.dbName, cfg.2)) ∧
      ((MySQLDB.Open drv dfltIdle dfltOpen db).1 = none →
        (MySQLDB.Open drv dfltIdle dfltOpen db).2.1.Conn
          = some ⟨"mysql", drv.formatDSN (db.dbName, cfg.2)⟩)) ∧
    (db.dbName ≠ "" → ∀ e, drv.parseDSN db.dataSourceName = .error e →
      (MySQLDB.Open drv dfltIdle dfltOpen db).1 = some e ∧
      (MySQLDB.Open drv dfltIdle dfltOpen db).2.1 = db ∧
      (∀ d c, Call.sqlOpen d c ∉ (MySQLDB.Open drv dfltIdle dfltOpen db).2.2)) ∧
    (∀ n, n ≠ "" → ∀ dsnName rest, drv.parseDSN db.dataSourceName = .ok (dsnName, rest) →
      drv.sqlOpenErr "mysql" (drv.formatDSN (n, rest)) = none →
      (MySQLDB.Open drv dfltIdle dfltOpen (MySQLDB.SwitchDB Err db n).2.1).1 = none ∧
      (MySQLDB.Open drv dfltIdle dfltOpen (MySQLDB.SwitchDB Err db n).2.1).2.1.Conn
        = some ⟨"mysql", drv.formatDSN (n, rest)⟩) := by
  refine ⟨?_, ?_, ?_, ?_⟩
  · intro h0
    simp only [MySQLDB.Open, h0, ne_eq, not_true_eq_false, if_false, MySQLDB.Open.connect]
    cases drv.sqlOpenErr "mysql" db.dataSourceName with
    | some e => simp
    | none => refine ⟨?_, ?_, ?_, ?_⟩ <;> (try split_ifs) <;> simp
  · intro hne cfg hp
    simp only [MySQLDB.Open, hne, ne_eq, not_false_eq_true, if_true, hp, MySQLDB.Open.connect]
    cases drv.sqlOpenErr "mysql" (drv.formatDSN (db.dbName, cfg.2)) with
    | some e => simp
    | none => refine ⟨?_, ?_, ?_, ?_⟩ <;> (try split_ifs) <;> simp
  · intro hne e hp
    simp [MySQLDB.Open, hne, hp]
  · intro n hn dsnName rest hp ho
    simp [MySQLDB.Open, MySQLDB.SwitchDB, hn, hp, MySQLDB.Open.connect, ho]

/-! ## The test harness: statements of the specification -/

theorem mem_mapSet (m : List String) (k l : String) : l ∈ mapSet m k ↔ l ∈ m ∨ l = k := by
  unfold mapSet
  split_ifs with h
  · constructor
    · exact Or.inl
    · rintro (h1 | rfl)
      · exact h1
      · exact h
  · simp

theorem mem_fill (l : String) :
    ∀ (got : List CompletionItem) (m : List String),
      l ∈ testCompletionItem.fill got m ↔ l ∈ m ∨ ∃ item ∈ got, item.Label = l
  | [], m => by simp [testCompletionItem.fill]
  | item :: rest, m => by
    simp only [testCompletionItem.fill, mem_fill l rest, mem_mapSet, List.mem_cons,
      exists_eq_or_imp]
    constructor
    · rintro ((h | h) | h)
      · exact Or.inl h
      · exact Or.inr (Or.inl h.symm)
      · exact Or.inr (Or.inr h)
    · rintro (h | h | h)
      · exact Or.inl (Or.inl h)
      · exact Or.inl (Or.inr h.symm)
      · exact Or.inr h

theorem check_eq_filter (m : List String) :
    ∀ expect : List String,
      testCompletionItem.check m expect
        = (expect.filter fun el => decide (el ∉ m)).map
            (TestEvent.Errorf "not included label, expect %q")
  | [] => rfl
  | el :: rest => by
    by_cases h : el ∈ m <;>
      simp [testCompletionItem.check, mapHas, h, check_eq_filter m rest]

theorem testCompletionItem_eq_filter (expect : List String) (got : List CompletionItem) :
    testCompletionItem expect got
      = (expect.filter fun el => decide (el ∉ got.map (fun item => item.Label))).map
          (TestEvent.Errorf "not included label, expect %q") := by
  unfold testCompletionItem
  rw [check_eq_filter]
  congr 1
  apply List.filter_congr
  intro el _
  have := mem_fill el got []
  simp only [List.not_mem_nil, false_or] at this
  simp [this]

/-- C8: the reference tests assert presence only. `testCompletionItem` reports exactly one
failure for each expected label that is the label of no returned item, in the order of the
expected labels, and nothing else: it reports a failure if and only if some expected label is
missing from the returned items. Returned lists with the same set of labels (in another order,
or with duplicates) give the same report, and additional returned items never add a failure. -/
theorem testCompletionItem_presence_only (expect : List String) (got : List CompletionItem) :
    testCompletionItem expect got
      = (expect.filter fun el => decide (el ∉ got.map (fun item => item.Label))).map
          (TestEvent.Errorf "not included label, expect %q") ∧
    (testCompletionItem expect got ≠ [] ↔ ∃ el ∈ expect, ∀ item ∈ got, item.Label ≠ el) ∧
    (∀ got2 : List CompletionItem,
      (∀ l, l ∈ got2.map (fun item => item.Label) ↔ l ∈ got.map (fun item => item.Label)) →
      testCompletionItem expect got2 = testCompletionItem expect got) ∧
    (∀ got2 : List CompletionItem, got2.Perm got →
      testCompletionItem expect got2 = testCompletionItem expect got) ∧
    testCompletionItem expect (got ++ got) = testCompletionItem expect got ∧
    (∀ extra : List CompletionItem,
      (testCompletionItem expect (got ++ extra)).Sublist (testCompletionItem expect got) ∧
      (testCompletionItem expect got = [] → testCompletionItem expect (got ++ extra) = [])) := by
  have hset : ∀ got2 : List CompletionItem,
      (∀ l, l ∈ got2.map (fun item => item.Label) ↔ l ∈ got.map (fun item => item.Label)) →
      testCompletionItem expect got2 = testCompletionItem expect got := by
    intro got2 h
    rw [testCompletionItem_eq_filter, testCompletionItem_eq_filter]
    congr 1
    apply List.filter_congr
    intro el _
    simp only [h el]
  have hsub : ∀ extra : List CompletionItem,
      (testCompletionItem expect (got ++ extra)).Sublist (testCompletionItem expect got) := by
    intro extra
    rw [testCompletionItem_eq_filter, testCompletionItem_eq_filter]
    apply List.Sublist.map
    apply List.monotone_filter_right
    intro el hel
    simp only [List.map_append, List.mem_append, not_or, decide_eq_true_eq] at hel ⊢
    exact hel.1
  refine ⟨testCompletionItem_eq_filter expect got, ?_, hset, ?_, ?_, ?_⟩
  · rw [testCompletionItem_eq_filter]
    simp only [ne_eq, List.map_eq_nil_iff, List.filter_eq_nil_iff, not_forall,
      decide_eq_true_eq, List.mem_map, not_exists, not_and, not_not]
    constructor
    · rintro ⟨el, hel, hno⟩
      exact ⟨el, hel, fun item hi => hno item hi⟩
    · rintro ⟨el, hel, hno⟩
      exact ⟨el, hel, fun item hi => hno item hi⟩
  · intro got2 hp
    exact hset got2 (fun l => (hp.map _).mem_iff)
  · apply hset
    intro l
    simp
  · intro extra
    refine ⟨hsub extra, fun h0 => ?_⟩
    have := hsub extra
    rw [h0] at this
    exact List.sublist_nil.mp this

/-- C10: when the configuration call succeeds, `TestComplete` runs, whatever order the map is
ranged in, exactly the cases of the six tables of `testcaseMap` (`statementCase`,
`selectExprCase`, `tableReferenceCase`, `colNameCase`, `caseValueCase`, `subQueryCase`), each
case once (42 subtests, no case twice); the eight cases of `whereCondition` are declared and
none of them is among the cases run. -/
theorem testComplete_runs_six_tables (srv : Server)
    (order : List (String × List completionTestCase))
    (hcfg : srv.didChangeConfiguration = none) (horder : order.Perm testcaseMap) :
    testcaseMap.map (fun kv => kv.2)
      = [statementCase, selectExprCase, tableReferenceCase, colNameCase, caseValueCase,
          subQueryCase] ∧
    ∃ runs, TestComplete srv order = .ok runs ∧
      (runs.map fun r => r.tt).Perm
        (statementCase ++ selectExprCase ++ tableReferenceCase ++ colNameCase ++ caseValueCase
          ++ subQueryCase) ∧
      (runs.map fun r => r.tt).Nodup ∧ runs.length = 42 ∧
      whereCondition.length = 8 ∧ ∀ c ∈ whereCondition, c ∉ runs.map fun r => r.tt := by
  refine ⟨rfl,
    order.flatMap (fun kv =>
      kv.2.map fun tt => (⟨kv.1 ++ " " ++ tt.name, tt, TestComplete.body srv tt⟩ : Subtest)),
    by simp only [TestComplete, hcfg], ?_⟩
  have hmap : ∀ l : List (String × List completionTestCase),
      (l.flatMap fun kv =>
          kv.2.map fun tt => (⟨kv.1 ++ " " ++ tt.name, tt, TestComplete.body srv tt⟩ : Subtest)).map
        (fun r => r.tt) = l.flatMap fun kv => kv.2 := by
    intro l
    induction l with
    | nil => rfl
    | cons kv l ih =>
      simp only [List.flatMap_cons, List.map_append, ih, List.map_map]
      congr 1
      exact List.map_id _
  have hperm : (order.flatMap fun kv => kv.2).Perm
      (statementCase ++ selectExprCase ++ tableReferenceCase ++ colNameCase ++ caseValueCase
        ++ subQueryCase) := by
    have h := horder.flatMap_right (fun kv => kv.2)
    simpa [testcaseMap] using h
  have hnodup : (statementCase ++ selectExprCase ++ tableReferenceCase ++ colNameCase
      ++ caseValueCase ++ subQueryCase).Nodup := by decide
  have hwhere : ∀ c ∈ whereCondition, c ∉ statementCase ++ selectExprCase ++ tableReferenceCase
      ++ colNameCase ++ caseValueCase ++ subQueryCase := by decide
  rw [hmap]
  refine ⟨hperm, hperm.nodup_iff.mpr hnodup, ?_, rfl, ?_⟩
  · have hl := congrArg List.length (hmap order)
    rw [List.length_map] at hl
    rw [hl, hperm.length_eq]
    rfl
  · intro c hc hin
    exact hwhere c hc (hperm.mem_iff.mp hin)

/-- C10 at a server that accepts every call and answers no item, the map ranged in reverse. -/
theorem testComplete_runs_six_tables_witness :
    idleServer.didChangeConfiguration = none ∧ testcaseMap.reverse.Perm testcaseMap ∧
    ∃ runs, TestComplete idleServer testcaseMap.reverse = .ok runs ∧
      (runs.map fun r => r.tt).Perm
        (statementCase ++ selectExprCase ++ tableReferenceCase ++ colNameCase ++ caseValueCase
          ++ subQueryCase) ∧
      (runs.map fun r => r.tt).Nodup ∧ runs.length = 42 ∧
      whereCondition.length = 8 ∧ ∀ c ∈ whereCondition, c ∉ runs.map fun r => r.tt :=
  ⟨rfl, List.reverse_perm _,
    (testComplete_runs_six_tables idleServer testcaseMap.reverse rfl (List.reverse_perm _)).2⟩

/-! ## The completion engine: statements of the specification -/

theorem first_boundary : ∀ (a : List Token) (d : Nat), bodyDepth d a = none →
    ∃ b rest, a = b ++ semi :: rest ∧ bodyDepth d b = some 0
  | [], d, h => by simp [bodyDepth] at h
  | t :: a, d, h => by
    simp only [bodyDepth] at h
    split_ifs at h with hb
    · simp only [Token.isPunct, Bool.and_eq_true, beq_iff_eq] at hb
      obtain ⟨⟨hk, ht⟩, hd⟩ := hb
      refine ⟨[], a, ?_, ?_⟩
      · cases t
        simp only at hk ht
        subst hk ht
        rfl
      · rw [hd]
        rfl
    · obtain ⟨b, rest, hab, hbd⟩ := first_boundary a _ h
      refine ⟨t :: b, rest, by rw [hab]; rfl, ?_⟩
      simp only [bodyDepth, if_neg hb, hbd]

theorem document_splits : ∀ (n : Nat) (toks : List Token), toks.length ≤ n →
    ∃ pre last, toks = joinStatements pre ++ last ∧
      (∀ p ∈ pre, bodyDepth 0 p = some 0) ∧ bodyDepth 0 last ≠ none
  | 0, toks, h => by
    have : toks = [] := List.length_eq_zero.mp (Nat.le_zero.mp h)
    subst this
    exact ⟨[], [], rfl, fun _ h => absurd h (List.not_mem_nil _), by simp [bodyDepth]⟩
  | n + 1, toks, h => by
    cases hb : bodyDepth 0 toks with
    | some d => exact ⟨[], toks, rfl, fun _ h => absurd h (List.not_mem_nil _), by simp [hb]⟩
    | none =>
      obtain ⟨b, rest, hab, hbd⟩ := first_boundary toks 0 hb
      have hlen : rest.length ≤ n := by
        have := congrArg List.length hab
        simp only [List.length_append, List.length_cons] at this
        omega
      obtain ⟨pre, last, hr, hpre, hlast⟩ := document_splits n rest hlen
      refine ⟨b :: pre, last, ?_, ?_, hlast⟩
      · rw [hab, hr]
        simp [joinStatements]
      · intro p hp
        rcases List.mem_cons.mp hp with rfl | hp
        · exact hbd
        · exact hpre p hp

/-- Every run of tokens is a document in the sense of `joinStatements`: statement bodies
closed by `;`, then a last part that holds no statement boundary. -/
theorem document_is_joined (toks : List Token) :
    ∃ pre last, toks = joinStatements pre ++ last ∧
      (∀ p ∈ pre, bodyDepth 0 p = some 0) ∧ bodyDepth 0 last ≠ none :=
  document_splits toks.length toks (Nat.le_refl _)

set_option maxRecDepth 20000 in
/-- The modelled engine passes every case of the seven tables of `completion_test.go`. -/
theorem model_passes_reference_cases :
    ∀ tt ∈ statementCase ++ selectExprCase ++ tableReferenceCase ++ whereCondition ++ colNameCase
      ++ caseValueCase ++ subQueryCase, TestComplete.body modelServer tt = [] := by
  decide

end Sqls
